import Mathlib

/-!
Shallow embedding of the generic object-pool core of the BFObjectPooling
plugin (TBFObjectPool / TBFPooledObjectHandle / UBFPoolContainer), translated
from
  Source/BFObjectPooling/Pool/BFObjectPool.h
  Source/BFObjectPooling/Pool/BFPooledObjectHandle.h
  Source/BFObjectPooling/Pool/Private/BFPoolContainer.h

Modelling conventions:
  * World-clock seconds (float in the source) are modelled as exact rationals.
  * int64 pool IDs and the handle's int32 checkout ID are modelled as Int.
  * The slot's ObjectCheckoutID is an int16 in the source
    (FBFPooledObjectInfo, BFPoolContainer.h line 22); its increments are
    modelled with an explicit wrap at 2^15 (two's complement wraparound).
  * TMap is modelled as an association list whose Add replaces an existing
    key; TArray is a plain list (Add appends, Pop takes the last element,
    RemoveAtSwap swaps in the last element).
  * Checked container accesses (TMap::FindChecked, operator[], TArray::Pop
    on empty) and null-pointer dereferences are modelled as a `crash`
    outcome, distinct from every normal return value.
  * Engine-side effects carried by the pooled object (activation state,
    delegates, logging) do not affect the pool's own bookkeeping and are not
    part of the state; the pooled object itself is an opaque Nat identity.
-/

namespace BFOP

set_option maxRecDepth 8000

/-- KINDA_SMALL_NUMBER, the engine constant 1.e-4f used by the pool as the
threshold below which a cooldown time is treated as absent. -/
def KINDA_SMALL_NUMBER : ℚ := 1 / 10000

/-- Two's-complement normalisation of an Int into the int16 range
[-32768, 32767], as performed by storing into the slot's int16 field. -/
def wrap16 (x : Int) : Int := (x + 32768) % 65536 - 32768

/-- The increment `++Info.ObjectCheckoutID` on the slot's int16 checkout
field, with int16 wraparound. -/
def bump16 (x : Int) : Int := wrap16 (x + 1)

/-- Outcome of an operation that can hit a checked container access or a
null-pointer dereference: either a normal result or a crash. -/
inductive BFRes (α : Type) where
  | crash : BFRes α
  | ok : α → BFRes α
deriving DecidableEq

/-- FBFPooledObjectInfo (BFPoolContainer.h lines 12-25): the bookkeeping
record for one pooled object. `pooledObject` stands for the TObjectPtr
(an opaque object identity). -/
structure FBFPooledObjectInfo where
  pooledObject : Nat
  objectPoolID : Int
  creationTime : ℚ
  lastTimeActive : ℚ
  objectCheckoutID : Int
  bActive : Bool
  bIsReclaimable : Bool
deriving DecidableEq

/-- FReclaimableUnpooledObjectInfo (BFObjectPool.h lines 305-310). -/
structure FReclaimableUnpooledObjectInfo where
  poolID : Int
  checkoutID : Int
  timeUnpooled : ℚ
deriving DecidableEq

/-- EBFPooledObjectReclaimPolicy (BFObjectPool.h lines 124-133). -/
inductive EBFPooledObjectReclaimPolicy where
  | nonReclaimable
  | reclaimable
deriving DecidableEq

/-- EBFPooledObjectReclaimStrategy (BFObjectPool.h lines 138-151). -/
inductive EBFPooledObjectReclaimStrategy where
  | oldest
  | firstFound
  | lastFound
  | random
deriving DecidableEq

/-- The pool's TMap of slot records, keyed by pool ID. -/
abbrev PoolMap := List (Int × FBFPooledObjectInfo)

/-- TMap::Find. -/
def mapFind (m : PoolMap) (k : Int) : Option FBFPooledObjectInfo :=
  match m with
  | [] => none
  | (k', v) :: rest => if k' = k then some v else mapFind rest k

/-- TMap::Add: replaces the value when the key is present, appends otherwise. -/
def mapAdd (m : PoolMap) (k : Int) (v : FBFPooledObjectInfo) : PoolMap :=
  match m with
  | [] => [(k, v)]
  | (k', v') :: rest => if k' = k then (k, v) :: rest else (k', v') :: mapAdd rest k v

/-- TMap::Remove. -/
def mapRemove (m : PoolMap) (k : Int) : PoolMap :=
  match m with
  | [] => []
  | (k', v) :: rest => if k' = k then mapRemove rest k else (k', v) :: mapRemove rest k

/-- TArray::RemoveAtSwap at index i: the last element is swapped into place
and the array shrinks by one. -/
def removeAtSwap {α : Type} (l : List α) (i : Nat) : List α :=
  match l.getLast? with
  | none => l
  | some last => (l.set i last).dropLast

/-- TArray::RemoveSingle: removes the first occurrence only. -/
def removeSingle (l : List Int) (x : Int) : List Int :=
  match l with
  | [] => []
  | a :: rest => if a = x then rest else a :: removeSingle rest x

/-- TArray::Remove: removes every occurrence, preserving the order of the
remaining elements. -/
def removeAll (l : List Int) (x : Int) : List Int :=
  l.filter (fun a => a ≠ x)

/-- The mutable state of one TBFObjectPool together with its UBFPoolContainer:
the slot table, the inactive-ID list, the reclaimable side list, and the
configuration fields read by the pool's operations. -/
structure PoolState where
  objectPool : PoolMap
  inactiveObjectIDPool : List Int
  reclaimableUnpooledObjects : List FReclaimableUnpooledObjectInfo
  poolLimit : Int
  cooldownTimeSeconds : ℚ
  maxObjectInactiveOccupancySeconds : ℚ
  bAdoptionOnlyPool : Bool
  forceReturnReclaimStrategy : EBFPooledObjectReclaimStrategy
  currentPoolIDIndex : Int
  bHasBeenInit : Bool
deriving DecidableEq

/-- GetPoolNum: the number of slots in the table. -/
def getPoolNum (st : PoolState) : Int := st.objectPool.length

/-- GetInactivePoolNum: the length of the inactive-ID list. -/
def getInactivePoolNum (st : PoolState) : Int := st.inactiveObjectIDPool.length

/-- GetActivePoolNum = GetPoolNum - GetInactivePoolNum. -/
def getActivePoolNum (st : PoolState) : Int := getPoolNum st - getInactivePoolNum st

/-- TBFPooledObjectHandle's captured fields (BFPooledObjectHandle.h lines
84-88): the captured pool ID, the captured checkout ID (int32 in the source,
copied from the slot's int16), and the local invalidation flag. -/
structure HandleState where
  objectPoolID : Int
  objectCheckoutID : Int
  bInvalidated : Bool
deriving DecidableEq

/-- TBFObjectPool::IsObjectIDValid (BFObjectPool.h lines 1390-1401): the slot
exists and its current checkout ID equals the queried one. -/
def isObjectIDValid (st : PoolState) (poolID objectCheckoutID : Int) : Bool :=
  if st.bHasBeenInit then
    match mapFind st.objectPool poolID with
    | some info => info.objectCheckoutID = objectCheckoutID
    | none => false
  else false

/-- TBFPooledObjectHandle::IsHandleValid (BFPooledObjectHandle.h lines
143-151). The weak-pointer liveness tests (PooledObject.IsValid(),
OwningPool.IsValid()) are modelled as true: the pool and object are alive. -/
def isHandleValid (st : PoolState) (h : HandleState) : Bool :=
  !h.bInvalidated
    && decide (h.objectPoolID > -1)
    && decide (h.objectCheckoutID > -1)
    && isObjectIDValid st h.objectPoolID h.objectCheckoutID

/-- TBFObjectPool::CreateNewPoolEntry (BFObjectPool.h lines 677-798).
`newObject` is the object the engine hands back (SpawnActor / NewObject /
CreateWidget): `none` models construction failure, on which the source logs
and returns nullptr without touching the pool. On success the new record is
added to the slot table and its ID appended to the inactive list. -/
def createNewPoolEntry (st : PoolState) (timeNow : ℚ) (newObject : Option Nat) :
    Option (FBFPooledObjectInfo × PoolState) :=
  if getPoolNum st ≥ st.poolLimit ∨ st.bAdoptionOnlyPool then none
  else
    match newObject with
    | none => none
    | some obj =>
      let cooldownOffset : ℚ :=
        if st.cooldownTimeSeconds > 0 then st.cooldownTimeSeconds + KINDA_SMALL_NUMBER else 0
      let info : FBFPooledObjectInfo :=
        { pooledObject := obj
          objectPoolID := st.currentPoolIDIndex + 1
          creationTime := timeNow
          lastTimeActive := timeNow - cooldownOffset
          objectCheckoutID := bump16 (-1)
          bActive := false
          bIsReclaimable := false }
      some (info,
        { st with
            currentPoolIDIndex := st.currentPoolIDIndex + 1
            objectPool := mapAdd st.objectPool info.objectPoolID info
            inactiveObjectIDPool := st.inactiveObjectIDPool ++ [info.objectPoolID] })

/-- The hand-out bookkeeping block repeated in every Unpool path
(e.g. BFObjectPool.h lines 868-877): bump the checkout ID, mark active,
stamp LastTimeActive, and when the lease policy is Reclaimable set the flag
and append the slot to the reclaimable list (with the post-bump checkout ID,
keyed by the record's own ObjectPoolID field). The mutation happens in place
on the map entry under `key`, the ID the caller looked the record up with.
The caller is responsible for the path-specific inactive-list removal. -/
def checkoutSlot (st : PoolState) (key : Int) (info : FBFPooledObjectInfo)
    (timeNow : ℚ) (policy : EBFPooledObjectReclaimPolicy) :
    FBFPooledObjectInfo × PoolState :=
  let info1 :=
    { info with
        objectCheckoutID := bump16 info.objectCheckoutID
        bActive := true
        lastTimeActive := timeNow }
  let info2 :=
    if policy = EBFPooledObjectReclaimPolicy.reclaimable then
      { info1 with bIsReclaimable := true }
    else info1
  let recl :=
    if policy = EBFPooledObjectReclaimPolicy.reclaimable then
      st.reclaimableUnpooledObjects ++
        [{ poolID := info.objectPoolID
           checkoutID := info1.objectCheckoutID
           timeUnpooled := timeNow }]
    else st.reclaimableUnpooledObjects
  (info2,
    { st with
        objectPool := mapAdd st.objectPool key info2
        reclaimableUnpooledObjects := recl })

/-- TBFObjectPool::ReturnToPool_Internal (BFObjectPool.h lines 1260-1296):
only returns the slot when the checkout ID still matches; bumps the checkout
ID, clears the active flag, appends to the inactive list unless asked to
skip, and removes the slot's reclaimable entry (swap-removal) if present. -/
def returnToPool_Internal (st : PoolState) (poolID objectCheckoutID : Int)
    (bSkipAddingToInactivePool : Bool) : Bool × PoolState :=
  match mapFind st.objectPool poolID with
  | none => (false, st)
  | some info =>
    if info.objectCheckoutID = objectCheckoutID then
      let info1 :=
        { info with
            objectCheckoutID := bump16 info.objectCheckoutID
            bActive := false }
      let inact :=
        if bSkipAddingToInactivePool then st.inactiveObjectIDPool
        else st.inactiveObjectIDPool ++ [poolID]
      let found :=
        if st.reclaimableUnpooledObjects.length > 0 ∧ info1.bIsReclaimable then
          st.reclaimableUnpooledObjects.findIdx? (fun r => r.poolID = info.objectPoolID)
        else none
      let info2 :=
        match found with
        | some _ => { info1 with bIsReclaimable := false }
        | none => info1
      let recl :=
        match found with
        | some i => removeAtSwap st.reclaimableUnpooledObjects i
        | none => st.reclaimableUnpooledObjects
      (true,
        { st with
            objectPool := mapAdd st.objectPool poolID info2
            inactiveObjectIDPool := inact
            reclaimableUnpooledObjects := recl })
    else (false, st)

/-- The Oldest strategy's linear scan (BFObjectPool.h lines 1676-1690): index
of the first entry with strictly minimal TimeUnpooled, 0 when empty. -/
def oldestReclaimIndex (l : List FReclaimableUnpooledObjectInfo) : Nat :=
  (l.foldl
    (fun (acc : Nat × Option ℚ × Nat) r =>
      match acc with
      | (bi, bt, i) =>
        match bt with
        | none => (i, some r.timeUnpooled, i + 1)
        | some t =>
          if r.timeUnpooled < t then (i, some r.timeUnpooled, i + 1)
          else (bi, bt, i + 1))
    (0, none, 0)).1

/-- TBFObjectPool::TryReclaimUnpooledObject (BFObjectPool.h lines 1663-1733).
`randPick` is the oracle for FMath::RandRange(0, Num - 1), taken modulo the
list length. The selected entry is force-returned through
ReturnToPool_Internal with bSkipAddingToInactivePool = true; -1 is returned
when that fails. The only caller guards the list to be non-empty; the
out-of-bounds indexing that an empty list would produce in the source is
modelled as the -1 outcome. -/
def tryReclaimUnpooledObject (st : PoolState) (randPick : Nat) : Int × PoolState :=
  if st.bHasBeenInit then
    let n := st.reclaimableUnpooledObjects.length
    let idx : Nat :=
      match st.forceReturnReclaimStrategy with
      | EBFPooledObjectReclaimStrategy.oldest => oldestReclaimIndex st.reclaimableUnpooledObjects
      | EBFPooledObjectReclaimStrategy.firstFound => 0
      | EBFPooledObjectReclaimStrategy.lastFound => n - 1
      | EBFPooledObjectReclaimStrategy.random => randPick % n
    match st.reclaimableUnpooledObjects.get? idx with
    | none => (-1, st)
    | some entry =>
      match returnToPool_Internal st entry.poolID entry.checkoutID true with
      | (true, st1) => (entry.poolID, st1)
      | (false, st1) => (-1, st1)
  else (-1, st)

/-- Result of an Unpool call: a crash (checked failure / null dereference),
a null handle pointer, or a handle capturing the slot's pool ID and
post-bump checkout ID, together with the pool state afterwards. -/
inductive UnpoolResult where
  | crash : UnpoolResult
  | noObject : PoolState → UnpoolResult
  | handle : Int → Int → PoolState → UnpoolResult
deriving DecidableEq

/-- The cooldown scan of UnpoolObject (BFObjectPool.h lines 885-905's
selection part): walk the inactive list in insertion order and pick the
first ID whose TimeNow - LastTimeActive is at least the cooldown; looking a
listed ID up with operator[] / FindChecked crashes when it is absent. -/
def scanCooldown (m : PoolMap) (ids : List Int) (timeNow cooldown : ℚ) :
    BFRes (Option Int) :=
  match ids with
  | [] => BFRes.ok none
  | id :: rest =>
    match mapFind m id with
    | none => BFRes.crash
    | some info =>
      if timeNow - info.lastTimeActive < cooldown then scanCooldown m rest timeNow cooldown
      else BFRes.ok (some id)

/-- TBFObjectPool::UnpoolObject from line 863 on, reached when the inactive
list is non-empty (either initially or because a slot was just created).
With Cooldown < KINDA_SMALL_NUMBER the last inactive ID is popped (LIFO);
otherwise the inactive list is scanned in insertion order for the first
cooled-down slot, and if none qualifies one more creation attempt is made —
the source dereferences CreateNewPoolEntry's result there without a null
check (line 911), so a construction failure on that path is a crash. -/
def unpoolFromInactive (st : PoolState) (timeNow : ℚ) (newObject : Option Nat)
    (policy : EBFPooledObjectReclaimPolicy) : UnpoolResult :=
  let cooldown := st.cooldownTimeSeconds
  if cooldown < KINDA_SMALL_NUMBER then
    match st.inactiveObjectIDPool.getLast? with
    | none => UnpoolResult.crash
    | some id =>
      let st0 := { st with inactiveObjectIDPool := st.inactiveObjectIDPool.dropLast }
      match mapFind st0.objectPool id with
      | none => UnpoolResult.crash
      | some info =>
        match checkoutSlot st0 id info timeNow policy with
        | (info2, st2) => UnpoolResult.handle info2.objectPoolID info2.objectCheckoutID st2
  else
    match scanCooldown st.objectPool st.inactiveObjectIDPool timeNow cooldown with
    | BFRes.crash => UnpoolResult.crash
    | BFRes.ok (some id) =>
      match mapFind st.objectPool id with
      | none => UnpoolResult.crash
      | some info =>
        match checkoutSlot st id info timeNow policy with
        | (info2, st2) =>
          UnpoolResult.handle info2.objectPoolID info2.objectCheckoutID
            { st2 with inactiveObjectIDPool := removeAll st2.inactiveObjectIDPool id }
    | BFRes.ok none =>
      if getPoolNum st < st.poolLimit ∧ st.bAdoptionOnlyPool = false then
        match createNewPoolEntry st timeNow newObject with
        | none => UnpoolResult.crash
        | some (info, st1) =>
          match checkoutSlot st1 info.objectPoolID info timeNow policy with
          | (info2, st2) =>
            UnpoolResult.handle info2.objectPoolID info2.objectCheckoutID
              { st2 with
                  inactiveObjectIDPool := removeAll st2.inactiveObjectIDPool info.objectPoolID }
      else UnpoolResult.noObject st

/-- TBFObjectPool::UnpoolObject (BFObjectPool.h lines 803-932). The branch
for an empty inactive list first tries to create a new entry when below the
pool limit, and otherwise — at capacity — consults the reclaimable list
(without any cooldown check) and hands the force-returned slot straight
out. -/
def unpoolObject (st : PoolState) (timeNow : ℚ) (newObject : Option Nat)
    (policy : EBFPooledObjectReclaimPolicy) (randPick : Nat) : UnpoolResult :=
  if st.bHasBeenInit then
    if st.inactiveObjectIDPool.isEmpty then
      if getPoolNum st < st.poolLimit then
        match createNewPoolEntry st timeNow newObject with
        | none => UnpoolResult.noObject st
        | some (_, st1) => unpoolFromInactive st1 timeNow newObject policy
      else
        if st.reclaimableUnpooledObjects.length > 0 then
          match tryReclaimUnpooledObject st randPick with
          | (objectID, st1) =>
            if objectID ≠ -1 then
              match mapFind st1.objectPool objectID with
              | none => UnpoolResult.crash
              | some info =>
                match checkoutSlot st1 objectID info timeNow policy with
                | (info2, st2) =>
                  UnpoolResult.handle info2.objectPoolID info2.objectCheckoutID st2
            else UnpoolResult.noObject st1
        else UnpoolResult.noObject st
    else unpoolFromInactive st timeNow newObject policy
  else UnpoolResult.noObject st

/-- TBFObjectPool::ReturnToPool(Handle) (BFObjectPool.h lines 1217-1256).
The source's guard at line 1225 is
  if(!Handle.IsValid() && !Handle->IsHandleValid())
— a conjunction. With a null shared pointer (`none`) the left operand is
true, so the right operand dereferences null: a crash. With a non-null
pointer the left operand is false, so the conjunction is false whatever
IsHandleValid returns, and the body always executes: the slot is looked up
with FindChecked (crash when absent), its checkout ID bumped, it is marked
inactive and appended to the inactive list, and true is returned — with no
staleness check at all. -/
def returnToPool (st : PoolState) (handle : Option HandleState) :
    BFRes (Bool × PoolState) :=
  if st.bHasBeenInit then
    match handle with
    | none => BFRes.crash
    | some h =>
      if (!true && !(isHandleValid st h)) = true then BFRes.ok (false, st)
      else
        match mapFind st.objectPool h.objectPoolID with
        | none => BFRes.crash
        | some info =>
          let info1 :=
            { info with
                objectCheckoutID := bump16 info.objectCheckoutID
                bActive := false }
          let inact := st.inactiveObjectIDPool ++ [info.objectPoolID]
          let found :=
            if st.reclaimableUnpooledObjects.length > 0 ∧ info1.bIsReclaimable then
              st.reclaimableUnpooledObjects.findIdx? (fun r => r.poolID = info.objectPoolID)
            else none
          let info2 :=
            match found with
            | some _ => { info1 with bIsReclaimable := false }
            | none => info1
          let recl :=
            match found with
            | some i => removeAtSwap st.reclaimableUnpooledObjects i
            | none => st.reclaimableUnpooledObjects
          BFRes.ok (true,
            { st with
                objectPool := mapAdd st.objectPool h.objectPoolID info2
                inactiveObjectIDPool := inact
                reclaimableUnpooledObjects := recl })
  else BFRes.ok (false, st)

/-- TBFObjectPool::StealObject (BFObjectPool.h lines 1172-1212): when the
slot exists and the checkout ID matches, the slot is removed from the table
outright (and from the inactive list or reclaimable list as appropriate) and
the raw object returned; otherwise nil and no change. -/
def stealObject (st : PoolState) (poolID objectCheckoutID : Int) :
    Option Nat × PoolState :=
  if st.bHasBeenInit then
    match mapFind st.objectPool poolID with
    | none => (none, st)
    | some info =>
      if info.objectCheckoutID ≠ objectCheckoutID then (none, st)
      else
        let inact :=
          if info.bActive = false then removeSingle st.inactiveObjectIDPool poolID
          else st.inactiveObjectIDPool
        let recl :=
          if info.bActive = true ∧ info.bIsReclaimable = true then
            match st.reclaimableUnpooledObjects.findIdx? (fun r => r.poolID = poolID) with
            | some i => removeAtSwap st.reclaimableUnpooledObjects i
            | none => st.reclaimableUnpooledObjects
          else st.reclaimableUnpooledObjects
        (some info.pooledObject,
          { st with
              objectPool := mapRemove st.objectPool poolID
              inactiveObjectIDPool := inact
              reclaimableUnpooledObjects := recl })
  else (none, st)

/-- TBFObjectPool::AdoptObject (BFObjectPool.h lines 1090-1152): rejects a
null object, a full pool, or a class mismatch; otherwise wraps the object in
a fresh inactive slot exactly as CreateNewPoolEntry does (fresh pool ID from
the ever-incrementing counter, cooldown offset on LastTimeActive). -/
def adoptObject (st : PoolState) (timeNow : ℚ) (object : Option Nat)
    (bClassMatches : Bool) : Bool × PoolState :=
  if st.bHasBeenInit = false ∨ object = none ∨ getPoolNum st ≥ st.poolLimit
      ∨ bClassMatches = false then
    (false, st)
  else
    match object with
    | none => (false, st)
    | some obj =>
      let cooldownOffset : ℚ :=
        if st.cooldownTimeSeconds > 0 then st.cooldownTimeSeconds + KINDA_SMALL_NUMBER else 0
      let info : FBFPooledObjectInfo :=
        { pooledObject := obj
          objectPoolID := st.currentPoolIDIndex + 1
          creationTime := timeNow
          lastTimeActive := timeNow - cooldownOffset
          objectCheckoutID := bump16 (-1)
          bActive := false
          bIsReclaimable := false }
      (true,
        { st with
            currentPoolIDIndex := st.currentPoolIDIndex + 1
            objectPool := mapAdd st.objectPool info.objectPoolID info
            inactiveObjectIDPool := st.inactiveObjectIDPool ++ [info.objectPoolID] })

/-- The removal loop of RemoveInactiveNumFromPool (BFObjectPool.h lines
1358-1384): k times, pop the last inactive ID, look it up with FindChecked
(crash when absent) and remove it from the table. -/
def removeInactiveLoop (m : PoolMap) (inact : List Int) (k : Nat) :
    BFRes (PoolMap × List Int) :=
  match k with
  | 0 => BFRes.ok (m, inact)
  | Nat.succ k' =>
    match inact.getLast? with
    | none => BFRes.crash
    | some id =>
      match mapFind m id with
      | none => BFRes.crash
      | some _ => removeInactiveLoop (mapRemove m id) inact.dropLast k'

/-- TBFObjectPool::RemoveInactiveNumFromPool (BFObjectPool.h lines
1347-1386): refuses when asked for more than the inactive count, otherwise
pops and destroys that many inactive slots. -/
def removeInactiveNumFromPool (st : PoolState) (numToRemove : Int) :
    BFRes (Bool × PoolState) :=
  if st.bHasBeenInit then
    if numToRemove > getInactivePoolNum st then BFRes.ok (false, st)
    else
      match removeInactiveLoop st.objectPool st.inactiveObjectIDPool numToRemove.toNat with
      | BFRes.crash => BFRes.crash
      | BFRes.ok (m, inact) =>
        BFRes.ok (true, { st with objectPool := m, inactiveObjectIDPool := inact })
  else BFRes.ok (false, st)

/-- The per-ID loop of ClearInactiveObjectsPool (BFObjectPool.h lines
1315-1337): FindChecked each listed ID (crash when absent) and remove it
from the table. -/
def clearLoop (m : PoolMap) (ids : List Int) : BFRes PoolMap :=
  match ids with
  | [] => BFRes.ok m
  | id :: rest =>
    match mapFind m id with
    | none => BFRes.crash
    | some _ => clearLoop (mapRemove m id) rest

/-- TBFObjectPool::ClearInactiveObjectsPool (BFObjectPool.h lines
1301-1342): destroys and removes every inactive slot, then empties the
inactive list; false when there was nothing inactive. -/
def clearInactiveObjectsPool (st : PoolState) : BFRes (Bool × PoolState) :=
  if st.bHasBeenInit then
    if st.inactiveObjectIDPool.length = 0 then BFRes.ok (false, st)
    else
      match clearLoop st.objectPool st.inactiveObjectIDPool with
      | BFRes.crash => BFRes.crash
      | BFRes.ok m =>
        BFRes.ok (true, { st with objectPool := m, inactiveObjectIDPool := [] })
  else BFRes.ok (false, st)

/-- The sweep loop of EvaluatePoolOccupancy (BFObjectPool.h lines
1431-1461): an indexed iteration over the inactive-ID array; an expired slot
is removed from the table and swap-removed from the array (the iterator then
revisits the swapped-in element, so the index does not advance), otherwise
the index advances. -/
def evalOccupancyLoop (m : PoolMap) (arr : List Int) (i : Nat)
    (timeNow maxOcc : ℚ) (numRemoved : Nat) : BFRes (PoolMap × List Int × Nat) :=
  if h : i < arr.length then
    let id := arr.get ⟨i, h⟩
    match mapFind m id with
    | none => BFRes.crash
    | some info =>
      if timeNow - info.lastTimeActive ≥ maxOcc then
        evalOccupancyLoop (mapRemove m id) (removeAtSwap arr i) i timeNow maxOcc
          (numRemoved + 1)
      else evalOccupancyLoop m arr (i + 1) timeNow maxOcc numRemoved
  else BFRes.ok (m, arr, numRemoved)
termination_by arr.length - i
decreasing_by
  · have harr : arr ≠ [] := by
      intro hnil
      rw [hnil] at h
      simp at h
    cases hl : arr.getLast? with
    | none => exact absurd (List.getLast?_eq_none_iff.mp hl) harr
    | some last =>
      simp only [removeAtSwap, hl]
      have hlen : ((arr.set i last).dropLast).length = arr.length - 1 := by
        simp [List.length_dropLast, List.length_set]
      omega
  · omega

/-- TBFObjectPool::EvaluatePoolOccupancy (BFObjectPool.h lines 1421-1469).
Note it reads MaxObjectInactiveOccupancySeconds without checking that it is
positive; true is returned when at least one slot was removed. -/
def evaluatePoolOccupancy (st : PoolState) (timeNow : ℚ) : BFRes (Bool × PoolState) :=
  if st.bHasBeenInit then
    match evalOccupancyLoop st.objectPool st.inactiveObjectIDPool 0 timeNow
        st.maxObjectInactiveOccupancySeconds 0 with
    | BFRes.crash => BFRes.crash
    | BFRes.ok (m, arr, numRemoved) =>
      BFRes.ok (decide (numRemoved > 0),
        { st with objectPool := m, inactiveObjectIDPool := arr })
  else BFRes.ok (false, st)

/-- TBFObjectPool::Tick (BFObjectPool.h lines 636-672): the periodic
container callback runs the sweep only when a positive
MaxObjectInactiveOccupancySeconds is configured. -/
def tick (st : PoolState) (timeNow : ℚ) : BFRes PoolState :=
  if st.maxObjectInactiveOccupancySeconds > 0 then
    match evaluatePoolOccupancy st timeNow with
    | BFRes.crash => BFRes.crash
    | BFRes.ok (_, st1) => BFRes.ok st1
  else BFRes.ok st

/-- TBFObjectPool::SetPoolLimit (BFObjectPool.h lines 1475-1508): raising
(or keeping) the limit always succeeds; lowering succeeds only when the
active count fits under the new limit, trimming inactive slots when the
total exceeds it. -/
def setPoolLimit (st : PoolState) (inPoolLimit : Int) : BFRes (Bool × PoolState) :=
  if st.bHasBeenInit then
    if inPoolLimit = st.poolLimit then BFRes.ok (true, st)
    else
      if inPoolLimit > st.poolLimit then
        BFRes.ok (true, { st with poolLimit := inPoolLimit })
      else
        let currentPoolSize := getPoolNum st
        let inactivePoolSize := getInactivePoolNum st
        if currentPoolSize - inactivePoolSize ≤ inPoolLimit then
          if currentPoolSize ≤ inPoolLimit then
            BFRes.ok (true, { st with poolLimit := inPoolLimit })
          else
            match removeInactiveNumFromPool st (currentPoolSize - inPoolLimit) with
            | BFRes.crash => BFRes.crash
            | BFRes.ok (_, st1) => BFRes.ok (true, { st1 with poolLimit := inPoolLimit })
        else BFRes.ok (false, st)
  else BFRes.ok (false, st)

/-- The inactive-list scan shared by UnpoolObjectByTag and
UnpoolObjectByPredicate (BFObjectPool.h lines 952-975 and 1032-1052): first
listed ID whose object passes the selection test. For ByTag the test is
"implements the interface and its gameplay tag equals the requested one",
for ByPredicate it is the user predicate; both are abstracted as a boolean
function of the object. -/
def scanMatch (m : PoolMap) (ids : List Int) (matchesObj : Nat → Bool) :
    BFRes (Option Int) :=
  match ids with
  | [] => BFRes.ok none
  | id :: rest =>
    match mapFind m id with
    | none => BFRes.crash
    | some info =>
      if matchesObj info.pooledObject then BFRes.ok (some id)
      else scanMatch m rest matchesObj

/-- The reclaimable-list scan shared by UnpoolObjectByTag and
UnpoolObjectByPredicate (BFObjectPool.h lines 982-1009 and 1059-1082): for
the first matching entry whose internal force-return succeeds, re-checkout
the same slot and hand it out; entries whose force-return fails are skipped.
The source iterates the live array, but only mutates it in the branch that
returns, so iterating a snapshot is equivalent. -/
def reclaimMatchLoop (st : PoolState) (entries : List FReclaimableUnpooledObjectInfo)
    (timeNow : ℚ) (matchesObj : Nat → Bool) (policy : EBFPooledObjectReclaimPolicy) :
    UnpoolResult :=
  match entries with
  | [] => UnpoolResult.noObject st
  | r :: rest =>
    match mapFind st.objectPool r.poolID with
    | none => UnpoolResult.crash
    | some info =>
      if matchesObj info.pooledObject then
        match returnToPool_Internal st r.poolID r.checkoutID true with
        | (true, st1) =>
          match mapFind st1.objectPool r.poolID with
          | none => UnpoolResult.crash
          | some info1 =>
            match checkoutSlot st1 r.poolID info1 timeNow policy with
            | (info2, st2) =>
              UnpoolResult.handle info2.objectPoolID info2.objectCheckoutID
                { st2 with inactiveObjectIDPool := removeAll st2.inactiveObjectIDPool r.poolID }
        | (false, st1) => reclaimMatchLoop st1 rest timeNow matchesObj policy
      else reclaimMatchLoop st rest timeNow matchesObj policy

/-- TBFObjectPool::UnpoolObjectByTag (BFObjectPool.h lines 936-1013).
`tagValid` models Tag.IsValid(). The reclaimable list is consulted only when
CooldownTimeSeconds <= KINDA_SMALL_NUMBER. -/
def unpoolObjectByTag (st : PoolState) (timeNow : ℚ) (tagValid : Bool)
    (matchesObj : Nat → Bool) (policy : EBFPooledObjectReclaimPolicy) : UnpoolResult :=
  if st.bHasBeenInit then
    if tagValid = false then UnpoolResult.noObject st
    else
      match scanMatch st.objectPool st.inactiveObjectIDPool matchesObj with
      | BFRes.crash => UnpoolResult.crash
      | BFRes.ok (some id) =>
        match mapFind st.objectPool id with
        | none => UnpoolResult.crash
        | some info =>
          match checkoutSlot st id info timeNow policy with
          | (info2, st2) =>
            UnpoolResult.handle info2.objectPoolID info2.objectCheckoutID
              { st2 with inactiveObjectIDPool := removeAll st2.inactiveObjectIDPool id }
      | BFRes.ok none =>
        if st.cooldownTimeSeconds ≤ KINDA_SMALL_NUMBER then
          reclaimMatchLoop st st.reclaimableUnpooledObjects timeNow matchesObj policy
        else UnpoolResult.noObject st
  else UnpoolResult.noObject st

/-- TBFObjectPool::UnpoolObjectByPredicate (BFObjectPool.h lines 1017-1086).
`hasPred` models the TFunction being bound; note the early return when the
inactive list is empty. -/
def unpoolObjectByPredicate (st : PoolState) (timeNow : ℚ) (hasPred : Bool)
    (matchesObj : Nat → Bool) (policy : EBFPooledObjectReclaimPolicy) : UnpoolResult :=
  if st.bHasBeenInit then
    if st.inactiveObjectIDPool.length = 0 ∨ hasPred = false then UnpoolResult.noObject st
    else
      match scanMatch st.objectPool st.inactiveObjectIDPool matchesObj with
      | BFRes.crash => UnpoolResult.crash
      | BFRes.ok (some id) =>
        match mapFind st.objectPool id with
        | none => UnpoolResult.crash
        | some info =>
          match checkoutSlot st id info timeNow policy with
          | (info2, st2) =>
            UnpoolResult.handle info2.objectPoolID info2.objectCheckoutID
              { st2 with inactiveObjectIDPool := removeAll st2.inactiveObjectIDPool id }
      | BFRes.ok none =>
        if st.cooldownTimeSeconds ≤ KINDA_SMALL_NUMBER then
          reclaimMatchLoop st st.reclaimableUnpooledObjects timeNow matchesObj policy
        else UnpoolResult.noObject st
  else UnpoolResult.noObject st

/-- The configuration slice of FBFObjectPoolInitParams read by the core
(BFObjectPool.h lines 185-267). Owner/World/PoolClass validity are folded
into the boolean validity flags. -/
structure FBFObjectPoolInitParams where
  poolLimit : Int := 50
  initialCount : Int := 0
  cooldownTimeSeconds : ℚ := -1
  maxObjectInactiveOccupancySeconds : ℚ := -1
  bAdoptionOnlyPool : Bool := false
  forceReturnReclaimStrategy : EBFPooledObjectReclaimStrategy :=
    EBFPooledObjectReclaimStrategy.oldest
  ownerAndWorldValid : Bool := true
  poolClassValid : Bool := true

/-- TBFObjectPool::InitPool (BFObjectPool.h lines 542-631) on a freshly
created pool: rejects invalid configuration (returning the uninitialized
pool unchanged, modelled as `none`), then eagerly creates InitialCount
entries — ignoring individual construction failures, exactly as the source's
`while(Count--) CreateNewPoolEntry();` does. `objs` gives the object the
engine constructs on the i-th eager creation. -/
def initPool (params : FBFObjectPoolInitParams) (timeNow : ℚ)
    (objs : Nat → Option Nat) : Option PoolState :=
  if params.ownerAndWorldValid = false ∨ params.poolClassValid = false
      ∨ params.initialCount < 0 ∨ params.poolLimit < 1
      ∨ params.initialCount > params.poolLimit then
    none
  else
    let st0 : PoolState :=
      { objectPool := []
        inactiveObjectIDPool := []
        reclaimableUnpooledObjects := []
        poolLimit := params.poolLimit
        cooldownTimeSeconds := params.cooldownTimeSeconds
        maxObjectInactiveOccupancySeconds := params.maxObjectInactiveOccupancySeconds
        bAdoptionOnlyPool := params.bAdoptionOnlyPool
        forceReturnReclaimStrategy := params.forceReturnReclaimStrategy
        currentPoolIDIndex := -1
        bHasBeenInit := false }
    let stN :=
      (List.range params.initialCount.toNat).foldl
        (fun s i =>
          match createNewPoolEntry s timeNow (objs i) with
          | none => s
          | some (_, s') => s')
        st0
    some { stN with bHasBeenInit := true }

/-- One public pool operation, with the environment inputs (clock reading,
engine-constructed object, class-match and selection-test outcomes, random
pick) it consumes. `returnHandle` is the pool's ReturnToPool(Handle);
`returnFromHandle` is the handle-side route TBFPooledObjectHandle::
ReturnToPool, which forwards the captured IDs to ReturnToPool_Internal. -/
inductive PoolOp where
  | unpool : ℚ → Option Nat → EBFPooledObjectReclaimPolicy → Nat → PoolOp
  | unpoolByTag : ℚ → Bool → (Nat → Bool) → EBFPooledObjectReclaimPolicy → PoolOp
  | unpoolByPredicate : ℚ → Bool → (Nat → Bool) → EBFPooledObjectReclaimPolicy → PoolOp
  | returnHandle : Option HandleState → PoolOp
  | returnFromHandle : Int → Int → PoolOp
  | steal : Int → Int → PoolOp
  | adopt : ℚ → Option Nat → Bool → PoolOp
  | setLimit : Int → PoolOp
  | evalOccupancy : ℚ → PoolOp
  | tickOp : ℚ → PoolOp
  | removeInactive : Int → PoolOp
  | clearInactive : PoolOp

/-- Runs one public operation, keeping only the pool state (or the crash). -/
def runOp (st : PoolState) (op : PoolOp) : BFRes PoolState :=
  match op with
  | PoolOp.unpool t o p r =>
    match unpoolObject st t o p r with
    | UnpoolResult.crash => BFRes.crash
    | UnpoolResult.noObject s => BFRes.ok s
    | UnpoolResult.handle _ _ s => BFRes.ok s
  | PoolOp.unpoolByTag t tv f p =>
    match unpoolObjectByTag st t tv f p with
    | UnpoolResult.crash => BFRes.crash
    | UnpoolResult.noObject s => BFRes.ok s
    | UnpoolResult.handle _ _ s => BFRes.ok s
  | PoolOp.unpoolByPredicate t hp f p =>
    match unpoolObjectByPredicate st t hp f p with
    | UnpoolResult.crash => BFRes.crash
    | UnpoolResult.noObject s => BFRes.ok s
    | UnpoolResult.handle _ _ s => BFRes.ok s
  | PoolOp.returnHandle h =>
    match returnToPool st h with
    | BFRes.crash => BFRes.crash
    | BFRes.ok (_, s) => BFRes.ok s
  | PoolOp.returnFromHandle id ck => BFRes.ok (returnToPool_Internal st id ck false).2
  | PoolOp.steal id ck => BFRes.ok (stealObject st id ck).2
  | PoolOp.adopt t o cm => BFRes.ok (adoptObject st t o cm).2
  | PoolOp.setLimit n =>
    match setPoolLimit st n with
    | BFRes.crash => BFRes.crash
    | BFRes.ok (_, s) => BFRes.ok s
  | PoolOp.evalOccupancy t =>
    match evaluatePoolOccupancy st t with
    | BFRes.crash => BFRes.crash
    | BFRes.ok (_, s) => BFRes.ok s
  | PoolOp.tickOp t =>
    match tick st t with
    | BFRes.crash => BFRes.crash
    | BFRes.ok s => BFRes.ok s
  | PoolOp.removeInactive n =>
    match removeInactiveNumFromPool st n with
    | BFRes.crash => BFRes.crash
    | BFRes.ok (_, s) => BFRes.ok s
  | PoolOp.clearInactive =>
    match clearInactiveObjectsPool st with
    | BFRes.crash => BFRes.crash
    | BFRes.ok (_, s) => BFRes.ok s

/-- The pool ID captured by a successful Unpool, if any. -/
def unpooledID : UnpoolResult → Option Int
  | UnpoolResult.handle id _ _ => some id
  | _ => none

/-- The checkout ID captured by a successful Unpool, if any. -/
def unpooledCheckout : UnpoolResult → Option Int
  | UnpoolResult.handle _ ck _ => some ck
  | _ => none

/-- The pool state after an Unpool that did not crash. -/
def unpoolResState : UnpoolResult → Option PoolState
  | UnpoolResult.crash => none
  | UnpoolResult.noObject s => some s
  | UnpoolResult.handle _ _ s => some s

/-- The boolean returned by a ReturnToPool call that did not crash. -/
def retBool : BFRes (Bool × PoolState) → Option Bool
  | BFRes.crash => none
  | BFRes.ok (b, _) => some b

/-- The pool state after a ReturnToPool call that did not crash. -/
def retState : BFRes (Bool × PoolState) → Option PoolState
  | BFRes.crash => none
  | BFRes.ok (_, s) => some s

/-- Decidable form of "the listed slot exists and was last active no later
than t", used as a reachability-style hypothesis on timestamps. -/
def slotPast (m : PoolMap) (id : Int) (t : ℚ) : Bool :=
  match mapFind m id with
  | some info => decide (info.lastTimeActive ≤ t)
  | none => false

/-- A minimal initialized single-slot pool configuration shared by the
concrete test states below (capacity 1, no cooldown, sweeping disabled). -/
def baseState : PoolState :=
  { objectPool := []
    inactiveObjectIDPool := []
    reclaimableUnpooledObjects := []
    poolLimit := 1
    cooldownTimeSeconds := -1
    maxObjectInactiveOccupancySeconds := -1
    bAdoptionOnlyPool := false
    forceReturnReclaimStrategy := EBFPooledObjectReclaimStrategy.oldest
    currentPoolIDIndex := 0
    bHasBeenInit := true }

/-- Slot 0 of the C1 scenario: leased, current checkout ID 1. -/
def slotC1 : FBFPooledObjectInfo :=
  { pooledObject := 7
    objectPoolID := 0
    creationTime := 0
    lastTimeActive := 0
    objectCheckoutID := 1
    bActive := true
    bIsReclaimable := false }

/-- C1 scenario: one leased slot. -/
def stC1 : PoolState := { baseState with objectPool := [(0, slotC1)] }

/-- The lease's handle, captured at checkout ID 1, not locally invalidated
(the pool-side ReturnToPool never invalidates the shared handle object,
only the caller's own pointer). -/
def hC1 : HandleState := { objectPoolID := 0, objectCheckoutID := 1, bInvalidated := false }

/-- The pool state after the first (legitimate) pool-side return of the
C1 lease: checkout bumped to 2, slot inactive, inactive list holds 0 once. -/
def stC1b : PoolState :=
  { baseState with
      objectPool := [(0, { slotC1 with objectCheckoutID := 2, bActive := false })]
      inactiveObjectIDPool := [0] }

/-- Slot 0 of the C2 scenario: leased under the Reclaimable policy at t=10. -/
def slotC2 : FBFPooledObjectInfo :=
  { pooledObject := 3
    objectPoolID := 0
    creationTime := 0
    lastTimeActive := 10
    objectCheckoutID := 1
    bActive := true
    bIsReclaimable := true }

/-- C2 scenario: cooldown 5 configured, pool of capacity 1 at capacity, the
single slot active and reclaimable, registry non-empty, inactive list
empty. -/
def stC2 : PoolState :=
  { baseState with
      objectPool := [(0, slotC2)]
      reclaimableUnpooledObjects := [{ poolID := 0, checkoutID := 1, timeUnpooled := 10 }]
      cooldownTimeSeconds := 5 }

/-- Slot 0 of the C3 scenario: inactive, last active at t=8. -/
def slotC3 : FBFPooledObjectInfo :=
  { pooledObject := 4
    objectPoolID := 0
    creationTime := 0
    lastTimeActive := 8
    objectCheckoutID := 2
    bActive := false
    bIsReclaimable := false }

/-- C3 scenario: capacity 2, cooldown 5, one inactive slot still cooling
down at t=10, so UnpoolObject's scan finds nothing and it tries to create a
new entry while below capacity. -/
def stC3 : PoolState :=
  { baseState with
      objectPool := [(0, slotC3)]
      inactiveObjectIDPool := [0]
      poolLimit := 2
      cooldownTimeSeconds := 5 }

/-- Contrast state for C3: empty pool below capacity, where the same
construction failure is handled (first branch of UnpoolObject). -/
def stC3e : PoolState := { baseState with poolLimit := 2, currentPoolIDIndex := -1 }

/-- An inactive slot for the C5 scenario, submitted first. -/
def slotC5a : FBFPooledObjectInfo :=
  { pooledObject := 1
    objectPoolID := 1
    creationTime := 0
    lastTimeActive := 0
    objectCheckoutID := 2
    bActive := false
    bIsReclaimable := false }

/-- An inactive slot for the C5 scenario, submitted second. -/
def slotC5b : FBFPooledObjectInfo :=
  { pooledObject := 2
    objectPoolID := 2
    creationTime := 0
    lastTimeActive := 0
    objectCheckoutID := 2
    bActive := false
    bIsReclaimable := false }

/-- C5 scenario: a cooldown of 1/20000 s is configured (> 0, so the spec's
"cooldown configured" applies) but lies below KINDA_SMALL_NUMBER; both slots
qualify at t=10 and the insertion-order scan would pick slot 1. -/
def stC5 : PoolState :=
  { baseState with
      objectPool := [(1, slotC5a), (2, slotC5b)]
      inactiveObjectIDPool := [1, 2]
      poolLimit := 2
      cooldownTimeSeconds := 1 / 20000
      currentPoolIDIndex := 2 }

/-- The eager-initialisation parameters of the C4 reachability argument:
capacity 1, one eagerly created slot, no cooldown. -/
def paramsCycle : FBFObjectPoolInitParams := { poolLimit := 1, initialCount := 1 }

/-- The engine constructs object 7 on every eager creation. -/
def objsCycle : Nat → Option Nat := fun _ => some 7

/-- The single-slot pool of the C4 reachability argument with its slot
inactive at checkout ID c. -/
def stCk (c : Int) : PoolState :=
  { baseState with
      objectPool :=
        [(0,
          { pooledObject := 7
            objectPoolID := 0
            creationTime := 0
            lastTimeActive := 0
            objectCheckoutID := c
            bActive := false
            bIsReclaimable := false })]
      inactiveObjectIDPool := [0] }

/-- The same pool with its slot leased: checkout ID bumped from c, active,
inactive list empty. -/
def stMidC (c : Int) : PoolState :=
  { baseState with
      objectPool :=
        [(0,
          { pooledObject := 7
            objectPoolID := 0
            creationTime := 0
            lastTimeActive := 0
            objectCheckoutID := bump16 c
            bActive := true
            bIsReclaimable := false })]
      inactiveObjectIDPool := [] }

/-- The single-slot pool after k complete unpool/return cycles at time 0:
the slot's int16 checkout ID has been incremented 2k times from 0. -/
def stCycle (k : Nat) : PoolState := stCk (wrap16 (2 * (k : Int)))

/-- One complete lease cycle at time 0: UnpoolObject followed by the
handle-side return (ReturnToPool_Internal with the freshly captured IDs). -/
def poolCycle (st : PoolState) : PoolState :=
  match unpoolObject st 0 none EBFPooledObjectReclaimPolicy.nonReclaimable 0 with
  | UnpoolResult.handle id ck s => (returnToPool_Internal s id ck false).2
  | _ => st

/-- The mid-state of the C4 counterexample: the slot leased with checkout ID
at the int16 maximum 32767. -/
def stWrapMid : PoolState :=
  { baseState with
      objectPool :=
        [(0,
          { pooledObject := 7
            objectPoolID := 0
            creationTime := 0
            lastTimeActive := 0
            objectCheckoutID := 32767
            bActive := true
            bIsReclaimable := false })]
      inactiveObjectIDPool := [] }

/-- Decidable key-consistency of the slot table: every stored record's
ObjectPoolID field equals the key it is stored under. Every state built by
the pool's own operations satisfies this (records are created under their
own ID and only ever mutated in place). -/
def keysConsistentB (st : PoolState) : Bool :=
  st.objectPool.all (fun e => e.2.objectPoolID = e.1)

/-- What one public pool operation preserves: the capacity bound (slot count
at most the pool limit), the monotonicity of the pool-ID counter, and the
absence of any already-assigned-but-absent pool ID (so removed IDs never
reappear). -/
def StepOK (st st' : PoolState) : Prop :=
  (getPoolNum st ≤ st.poolLimit → getPoolNum st' ≤ st'.poolLimit) ∧
  st.currentPoolIDIndex ≤ st'.currentPoolIDIndex ∧
  ∀ id0 : Int, mapFind st.objectPool id0 = none → id0 ≤ st.currentPoolIDIndex →
    mapFind st'.objectPool id0 = none

/-- A stronger shape for the operations that neither create nor destroy
slots: limit, slot count and ID counter unchanged, and no absent key becomes
present. -/
def SameShape (st st' : PoolState) : Prop :=
  st'.poolLimit = st.poolLimit ∧
  getPoolNum st' = getPoolNum st ∧
  st'.currentPoolIDIndex = st.currentPoolIDIndex ∧
  ∀ id0 : Int, mapFind st.objectPool id0 = none → mapFind st'.objectPool id0 = none

/-- Witness slot for C9: its stored checkout ID is the captured value 5
after exactly 2^16 further increments. -/
def infoC9w : FBFPooledObjectInfo :=
  { pooledObject := 1
    objectPoolID := 0
    creationTime := 0
    lastTimeActive := 0
    objectCheckoutID := bump16^[65536] 5
    bActive := true
    bIsReclaimable := false }

/-- Witness pool for C9. -/
def stC9w : PoolState := { baseState with objectPool := [(0, infoC9w)] }

/-- The pool after clearing stC1b's inactive slot (C6 witness). -/
def stAfterClear : PoolState := { stC1b with objectPool := [], inactiveObjectIDPool := [] }

/-- Witness slots and pool for C7: capacity 3, two inactive slots. -/
def slotW7a : FBFPooledObjectInfo :=
  { pooledObject := 1
    objectPoolID := 1
    creationTime := 0
    lastTimeActive := 0
    objectCheckoutID := 0
    bActive := false
    bIsReclaimable := false }

/-- Second witness slot for C7. -/
def slotW7b : FBFPooledObjectInfo := { slotW7a with pooledObject := 2, objectPoolID := 2 }

/-- Witness pool for C7. -/
def stW7 : PoolState :=
  { baseState with
      poolLimit := 3
      objectPool := [(1, slotW7a), (2, slotW7b)]
      inactiveObjectIDPool := [1, 2]
      currentPoolIDIndex := 2 }

/-- Witness slot for C8: active lease at checkout ID 3. -/
def slotW8 : FBFPooledObjectInfo :=
  { pooledObject := 9
    objectPoolID := 5
    creationTime := 0
    lastTimeActive := 0
    objectCheckoutID := 3
    bActive := true
    bIsReclaimable := false }

/-- Witness pool for C8. -/
def stW8 : PoolState :=
  { baseState with objectPool := [(5, slotW8)], currentPoolIDIndex := 5 }

/-- Lemmas and claim theorems. -/

theorem policy_ne :
    ¬(EBFPooledObjectReclaimPolicy.nonReclaimable = EBFPooledObjectReclaimPolicy.reclaimable) := by
  decide

theorem wrap16_id {c : Int} (h1 : -32768 ≤ c) (h2 : c ≤ 32767) : wrap16 c = c := by
  unfold wrap16
  omega

theorem wrap16_range (x : Int) : -32768 ≤ wrap16 x ∧ wrap16 x ≤ 32767 := by
  unfold wrap16
  omega

theorem bump16_wrap16 (x : Int) : bump16 (wrap16 x) = wrap16 (x + 1) := by
  unfold bump16 wrap16
  omega

theorem bump16_iterate (n : Nat) (c : Int) (h1 : -32768 ≤ c) (h2 : c ≤ 32767) :
    bump16^[n] c = wrap16 (c + n) := by
  induction n with
  | zero => simpa using (wrap16_id h1 h2).symm
  | succ k ih =>
    rw [Function.iterate_succ_apply', ih, bump16_wrap16]
    congr 1
    push_cast
    ring

theorem mapFind_mapAdd (m : PoolMap) (k k' : Int) (v : FBFPooledObjectInfo) :
    mapFind (mapAdd m k v) k' = if k = k' then some v else mapFind m k' := by
  induction m with
  | nil => simp [mapAdd, mapFind]
  | cons e rest ih =>
    obtain ⟨k'', v''⟩ := e
    by_cases h1 : k'' = k
    · subst h1
      simp [mapAdd, mapFind]
      by_cases h2 : k'' = k' <;> simp [h2]
    · simp [mapAdd, h1, mapFind]
      by_cases h2 : k'' = k'
      · subst h2
        have : ¬ k = k'' := fun h => h1 h.symm
        simp [this]
      · simp [h2, ih]

theorem mapAdd_length_of_found (m : PoolMap) (k : Int) (v : FBFPooledObjectInfo)
    (h : (mapFind m k).isSome = true) : (mapAdd m k v).length = m.length := by
  induction m with
  | nil => simp [mapFind] at h
  | cons e rest ih =>
    obtain ⟨k'', v''⟩ := e
    by_cases h1 : k'' = k
    · simp [mapAdd, h1]
    · simp [mapFind, h1] at h
      simp [mapAdd, h1, ih h]

theorem mapAdd_length_le (m : PoolMap) (k : Int) (v : FBFPooledObjectInfo) :
    (mapAdd m k v).length ≤ m.length + 1 := by
  induction m with
  | nil => simp [mapAdd]
  | cons e rest ih =>
    obtain ⟨k'', v''⟩ := e
    by_cases h1 : k'' = k <;> simp [mapAdd, h1] <;> omega

theorem mapFind_mapRemove (m : PoolMap) (k k' : Int) :
    mapFind (mapRemove m k) k' = if k = k' then none else mapFind m k' := by
  induction m with
  | nil => simp [mapRemove, mapFind]
  | cons e rest ih =>
    obtain ⟨k'', v''⟩ := e
    by_cases h1 : k'' = k
    · subst h1
      by_cases h2 : k'' = k' <;> simp [mapRemove, mapFind, h2, ih] at * <;> simp [ih, h2]
    · simp [mapRemove, h1, mapFind]
      by_cases h2 : k'' = k'
      · subst h2
        have : ¬ k = k'' := fun h => h1 h.symm
        simp [this]
      · simp [h2, ih]

theorem mapRemove_length_le (m : PoolMap) (k : Int) : (mapRemove m k).length ≤ m.length := by
  induction m with
  | nil => simp [mapRemove]
  | cons e rest ih =>
    obtain ⟨k'', v''⟩ := e
    by_cases h1 : k'' = k <;> simp [mapRemove, h1] <;> omega

theorem mapRemove_length_lt (m : PoolMap) (k : Int)
    (h : (mapFind m k).isSome = true) : (mapRemove m k).length < m.length := by
  induction m with
  | nil => simp [mapFind] at h
  | cons e rest ih =>
    obtain ⟨k'', v''⟩ := e
    by_cases h1 : k'' = k
    · have := mapRemove_length_le rest k
      simp [mapRemove, h1]
      omega
    · simp [mapFind, h1] at h
      simp [mapRemove, h1]
      exact ih h

theorem unpool_stCk (c : Int) :
    unpoolObject (stCk c) 0 none EBFPooledObjectReclaimPolicy.nonReclaimable 0 =
      UnpoolResult.handle 0 (bump16 c) (stMidC c) := by
  unfold unpoolObject unpoolFromInactive stCk stMidC
  norm_num [checkoutSlot, mapFind, mapAdd, baseState, KINDA_SMALL_NUMBER, policy_ne]

theorem returnInternal_stMidC (c : Int) :
    returnToPool_Internal (stMidC c) 0 (bump16 c) false = (true, stCk (bump16 (bump16 c))) := by
  unfold returnToPool_Internal stMidC stCk
  norm_num [mapFind, mapAdd, baseState]

theorem stCk_cycle (c : Int) : poolCycle (stCk c) = stCk (bump16 (bump16 c)) := by
  unfold poolCycle
  rw [unpool_stCk c]
  show (returnToPool_Internal (stMidC c) 0 (bump16 c) false).2 = stCk (bump16 (bump16 c))
  rw [returnInternal_stMidC c]

theorem poolCycle_iterate (k : Nat) : poolCycle^[k] (stCycle 0) = stCycle k := by
  induction k with
  | zero => rfl
  | succ n ih =>
    rw [Function.iterate_succ_apply', ih]
    unfold stCycle
    rw [stCk_cycle, bump16_wrap16, bump16_wrap16]
    have harg : 2 * ((n : Int) + 1) = 2 * (n : Int) + 1 + 1 := by ring
    have hcast : ((n + 1 : Nat) : Int) = (n : Int) + 1 := by push_cast; ring
    rw [hcast, harg]

/-- Reachability of the C4 counterexample's pre-state: initialise a
capacity-1 pool with one eagerly created slot and run 16383 complete
unpool/return cycles; the slot's int16 checkout ID is then 32766. -/
theorem stCycle_16383_reachable :
    initPool paramsCycle 0 objsCycle = some (stCycle 0) ∧
    poolCycle^[16383] (stCycle 0) = stCycle 16383 := by
  exact ⟨by with_unfolding_all decide, poolCycle_iterate 16383⟩

theorem mapFind_mapAdd_self (m : PoolMap) (k : Int) (v : FBFPooledObjectInfo) :
    mapFind (mapAdd m k v) k = some v := by
  rw [mapFind_mapAdd]
  simp

theorem mapFind_mem (m : PoolMap) (k : Int) (v : FBFPooledObjectInfo)
    (h : mapFind m k = some v) : (k, v) ∈ m := by
  induction m with
  | nil => simp [mapFind] at h
  | cons e rest ih =>
    obtain ⟨k'', v''⟩ := e
    by_cases h1 : k'' = k
    · subst h1
      simp [mapFind] at h
      simp [h]
    · simp [mapFind, h1] at h
      simp [ih h]

theorem keysConsistent_find (st : PoolState) (hk : keysConsistentB st = true)
    (id : Int) (info : FBFPooledObjectInfo)
    (h : mapFind st.objectPool id = some info) : info.objectPoolID = id := by
  have hmem := mapFind_mem _ _ _ h
  unfold keysConsistentB at hk
  rw [List.all_eq_true] at hk
  have := hk _ hmem
  simpa using this

/-- C1. The spec says the pool's ReturnToPool is a no-op returning false on
a stale handle, and that a second ReturnToPool for the same lease leaves the
pool exactly as the first call left it. The code's guard at BFObjectPool.h
line 1225 uses && where || is needed, so with a non-null stale handle the
body always runs: starting from stC1 (slot 0 leased at checkout 1), the
first pool-side return produces stC1b; calling ReturnToPool again through a
second copy of the same handle — now stale (IsHandleValid is false) —
returns true again, bumps the generation a second time (to 3) and appends
slot 0 to the inactive list a second time, leaving [0, 0]. -/
theorem C1_stale_pool_return_executes :
    retState (returnToPool stC1 (some hC1)) = some stC1b ∧
    isHandleValid stC1b hC1 = false ∧
    retBool (returnToPool stC1b (some hC1)) = some true ∧
    (retState (returnToPool stC1b (some hC1))).map (fun s => s.inactiveObjectIDPool) =
      some [0, 0] ∧
    ((retState (returnToPool stC1b (some hC1))).bind (fun s => mapFind s.objectPool 0)).map
      (fun i => i.objectCheckoutID) = some 3 ∧
    ¬retState (returnToPool stC1b (some hC1)) = some stC1b := by
  with_unfolding_all decide

/-- C2. The spec (and the code's own reclaim-policy doc comment and the
ByTag/ByPredicate paths) say the Reclaim Registry is consulted only when no
cooldown is configured. UnpoolObject's at-capacity branch (BFObjectPool.h
lines 829-852) has no cooldown check: in stC2 (cooldown 5, capacity 1, the
single slot active-reclaimable since t=10, inactive list empty), Acquire at
t=12 force-reclaims and hands out the slot although now - lastActiveAt =
2 < 5 and the slot was not freshly constructed. -/
theorem C2_reclaim_ignores_cooldown :
    stC2.cooldownTimeSeconds = 5 ∧
    (0 : ℚ) < stC2.cooldownTimeSeconds ∧
    (mapFind stC2.objectPool 0).map (fun i => i.lastTimeActive) = some 10 ∧
    (12 : ℚ) - 10 < stC2.cooldownTimeSeconds ∧
    (mapFind stC2.objectPool 0).isSome = true ∧
    unpooledID
      (unpoolObject stC2 12 none EBFPooledObjectReclaimPolicy.nonReclaimable 0) = some 0 := by
  with_unfolding_all decide

/-- C3. The spec says a construction failure makes Acquire fall through as
if capacity were exhausted, on every path that constructs a new slot. On
the path where a configured cooldown disqualified every inactive slot and
the pool is below capacity (stC3: capacity 2, cooldown 5, one inactive slot
cooling down at t=10), BFObjectPool.h line 911 dereferences the null pointer
returned by the failed CreateNewPoolEntry: a crash, not a nil return. The
other construction path (stC3e: empty inactive list) does return nil. -/
theorem C3_construction_failure_crashes :
    getPoolNum stC3 < stC3.poolLimit ∧
    unpoolObject stC3 10 none EBFPooledObjectReclaimPolicy.nonReclaimable 0 =
      UnpoolResult.crash ∧
    unpoolObject stC3e 10 none EBFPooledObjectReclaimPolicy.nonReclaimable 0 =
      UnpoolResult.noObject stC3e := by
  with_unfolding_all decide

/-- C4 counterexample. At the reachable state stCycle 16383 (slot checkout
32766; see stCycle_16383_reachable), the next Acquire hands the slot out at
checkout 32767 (the int16 maximum), and the following Return stores
-32768: that Return does not strictly increase the generation. -/
theorem C4_wrap_counterexample :
    unpoolObject (stCycle 16383) 0 none EBFPooledObjectReclaimPolicy.nonReclaimable 0 =
      UnpoolResult.handle 0 32767 stWrapMid ∧
    (mapFind ((returnToPool_Internal stWrapMid 0 32767 false).2).objectPool 0).map
      (fun i => i.objectCheckoutID) = some (-32768) ∧
    ¬((-32768 : Int) > 32767) := by
  have h1 : stCycle 16383 = stCk 32766 := by
    unfold stCycle
    have : wrap16 (2 * ((16383 : Nat) : Int)) = 32766 := by
      unfold wrap16
      norm_num
    rw [this]
  have h3 : bump16 32766 = 32767 := by decide
  have h4 : stMidC 32766 = stWrapMid := by
    unfold stMidC stWrapMid
    rw [h3]
  refine ⟨?_, ?_, by decide⟩
  · rw [h1, unpool_stCk 32766, h3, h4]
  · rw [← h4, ← h3, returnInternal_stMidC 32766]
    have h5 : bump16 (bump16 (32766 : Int)) = -32768 := by decide
    rw [h5]
    rfl

/-- C4 amended. Each Acquire hand-out and each successful Return advances
the slot's 16-bit generation by exactly one with int16 wraparound — strictly
increasing except at the single wrap from 32767 to -32768 — and for a given
pool ID at most one captured generation can match the slot's live state, so
two handles with the same pool ID and different generations are never both
valid simultaneously. -/
theorem C4_generation_monotonic :
    (∀ (st : PoolState) (key : Int) (info : FBFPooledObjectInfo) (t : ℚ)
        (policy : EBFPooledObjectReclaimPolicy),
      ((checkoutSlot st key info t policy).1).objectCheckoutID =
        bump16 info.objectCheckoutID) ∧
    (∀ (st : PoolState) (id ck : Int) (skip : Bool) (st' : PoolState)
        (info : FBFPooledObjectInfo),
      returnToPool_Internal st id ck skip = (true, st') →
      mapFind st.objectPool id = some info →
      ∃ info', mapFind st'.objectPool id = some info' ∧
        info'.objectCheckoutID = bump16 info.objectCheckoutID) ∧
    (∀ c : Int, -32768 ≤ c → c < 32767 → bump16 c = c + 1 ∧ c < bump16 c) ∧
    bump16 32767 = -32768 ∧
    (∀ (st : PoolState) (id g1 g2 : Int), ¬g1 = g2 →
      ¬(isObjectIDValid st id g1 = true ∧ isObjectIDValid st id g2 = true)) := by
  refine ⟨?_, ?_, ?_, by decide, ?_⟩
  · intro st key info t policy
    unfold checkoutSlot
    dsimp only
    split <;> rfl
  · intro st id ck skip st' info hret hfind
    unfold returnToPool_Internal at hret
    simp only [hfind] at hret
    split at hret
    · have hst := congrArg Prod.snd hret
      dsimp only at hst
      subst hst
      refine ⟨_, mapFind_mapAdd_self _ _ _, ?_⟩
      dsimp only
      split <;> rfl
    · have := congrArg Prod.fst hret
      simp at this
  · intro c h1 h2
    refine ⟨?_, ?_⟩ <;> (unfold bump16 wrap16; omega)
  · intro st id g1 g2 hne hv
    obtain ⟨hv1, hv2⟩ := hv
    unfold isObjectIDValid at hv1 hv2
    cases hb : st.bHasBeenInit with
    | false =>
      rw [hb] at hv1
      simp at hv1
    | true =>
      cases hfind : mapFind st.objectPool id with
      | none =>
        rw [hb, hfind] at hv1
        simp at hv1
      | some info =>
        rw [hb, hfind] at hv1 hv2
        simp at hv1 hv2
        exact hne (hv1.symm.trans hv2)

/-- Witness for C4's amended theorem at concrete inputs. -/
theorem C4_generation_monotonic_witness :
    ((checkoutSlot baseState 0 slotC1 0 EBFPooledObjectReclaimPolicy.nonReclaimable).1).objectCheckoutID =
      bump16 slotC1.objectCheckoutID ∧
    (bump16 5 = 5 + 1 ∧ (5 : Int) < bump16 5) ∧
    ¬(isObjectIDValid stC1 0 1 = true ∧ isObjectIDValid stC1 0 2 = true) := by
  exact ⟨C4_generation_monotonic.1 baseState 0 slotC1 0 _,
    C4_generation_monotonic.2.2.1 5 (by decide) (by decide),
    C4_generation_monotonic.2.2.2.2 stC1 0 1 2 (by decide)⟩

/-- C9. The slot stores its checkout ID as an int16 while the handle
captures it as an int32: after exactly 2^16 increments the stored counter
returns to the captured value, so IsObjectIDValid (hence IsHandleValid)
reports the stale handle valid again — staleness detection is sound only
modulo 2^16 increments per slot. -/
theorem C9_checkout_wrap_revalidates (c : Int) (h1 : -32768 ≤ c) (h2 : c ≤ 32767)
    (st : PoolState) (id : Int) (info : FBFPooledObjectInfo)
    (hinit : st.bHasBeenInit = true)
    (hfind : mapFind st.objectPool id = some info)
    (hck : info.objectCheckoutID = bump16^[65536] c) :
    bump16^[65536] c = c ∧ isObjectIDValid st id c = true := by
  have hiter : bump16^[65536] c = c := by
    rw [bump16_iterate 65536 c h1 h2]
    unfold wrap16
    omega
  refine ⟨hiter, ?_⟩
  simp [isObjectIDValid, hinit, hfind, hck, hiter]

/-- Witness for C9: captured checkout 5, slot incremented 2^16 times. -/
theorem C9_checkout_wrap_revalidates_witness :
    ((-32768 : Int) ≤ 5 ∧ (5 : Int) ≤ 32767 ∧ stC9w.bHasBeenInit = true ∧
      mapFind stC9w.objectPool 0 = some infoC9w ∧
      infoC9w.objectCheckoutID = bump16^[65536] 5) ∧
    (bump16^[65536] (5 : Int) = 5 ∧ isObjectIDValid stC9w 0 5 = true) := by
  have hini : stC9w.bHasBeenInit = true := by simp [stC9w, baseState]
  have hfind : mapFind stC9w.objectPool 0 = some infoC9w := by
    simp [stC9w, baseState, mapFind]
  have hck : infoC9w.objectCheckoutID = bump16^[65536] 5 := by simp only [infoC9w]
  exact ⟨⟨by decide, by decide, hini, hfind, hck⟩,
    C9_checkout_wrap_revalidates 5 (by decide) (by decide) stC9w 0 infoC9w hini hfind hck⟩

/-- C5 counterexample. The spec treats any cooldown > 0 as configured; the
code compares against KINDA_SMALL_NUMBER (1e-4). In stC5 a cooldown of
1/20000 s is configured and both inactive slots qualify at t=10, so the
spec's insertion-order scan would hand out slot 1; the code takes the LIFO
branch and hands out slot 2. -/
theorem C5_cooldown_epsilon_counterexample :
    (0 : ℚ) < stC5.cooldownTimeSeconds ∧
    scanCooldown stC5.objectPool stC5.inactiveObjectIDPool 10 stC5.cooldownTimeSeconds =
      BFRes.ok (some 1) ∧
    unpooledID
      (unpoolObject stC5 10 none EBFPooledObjectReclaimPolicy.nonReclaimable 0) = some 2 ∧
    ¬(2 : Int) = 1 := by
  with_unfolding_all decide

/-- C5 amended. With the threshold corrected from "configured > 0" to
"at least KINDA_SMALL_NUMBER = 1e-4": when the inactive list is non-empty
and CooldownTimeSeconds < 1e-4, Acquire pops the most recently deactivated
slot (last of the inactive list); when CooldownTimeSeconds ≥ 1e-4, Acquire
hands out exactly the slot found by the insertion-order scan for the first
ID with now - lastActiveAt ≥ cooldown (first conjunct characterises that
scan), and if none qualifies it falls through to constructing a new slot
(ID counter + 1) or returns nil. -/
theorem C5_selection_order :
    (∀ (m : PoolMap) (ids : List Int) (t c : ℚ) (j : Int),
      scanCooldown m ids t c = BFRes.ok (some j) →
      ∃ pre post, ids = pre ++ j :: post ∧
        (∀ i ∈ pre, ∃ info, mapFind m i = some info ∧ t - info.lastTimeActive < c) ∧
        (∃ info, mapFind m j = some info ∧ c ≤ t - info.lastTimeActive)) ∧
    (∀ (st : PoolState) (t : ℚ) (newObject : Option Nat)
        (policy : EBFPooledObjectReclaimPolicy) (randPick : Nat) (l : List Int) (a : Int),
      st.bHasBeenInit = true →
      keysConsistentB st = true →
      st.cooldownTimeSeconds < KINDA_SMALL_NUMBER →
      st.inactiveObjectIDPool = l ++ [a] →
      (mapFind st.objectPool a).isSome = true →
      unpooledID (unpoolObject st t newObject policy randPick) = some a) ∧
    (∀ (st : PoolState) (t : ℚ) (newObject : Option Nat)
        (policy : EBFPooledObjectReclaimPolicy) (randPick : Nat) (j : Int),
      st.bHasBeenInit = true →
      keysConsistentB st = true →
      KINDA_SMALL_NUMBER ≤ st.cooldownTimeSeconds →
      scanCooldown st.objectPool st.inactiveObjectIDPool t st.cooldownTimeSeconds =
        BFRes.ok (some j) →
      unpooledID (unpoolObject st t newObject policy randPick) = some j) ∧
    (∀ (st : PoolState) (t : ℚ) (newObject : Option Nat)
        (policy : EBFPooledObjectReclaimPolicy) (randPick : Nat),
      st.bHasBeenInit = true →
      KINDA_SMALL_NUMBER ≤ st.cooldownTimeSeconds →
      ¬st.inactiveObjectIDPool = [] →
      scanCooldown st.objectPool st.inactiveObjectIDPool t st.cooldownTimeSeconds =
        BFRes.ok none →
      unpooledID (unpoolObject st t newObject policy randPick) = none ∨
      unpooledID (unpoolObject st t newObject policy randPick) =
        some (st.currentPoolIDIndex + 1)) := by
  have hscanChar : ∀ (m : PoolMap) (ids : List Int) (t c : ℚ) (j : Int),
      scanCooldown m ids t c = BFRes.ok (some j) →
      ∃ pre post, ids = pre ++ j :: post ∧
        (∀ i ∈ pre, ∃ info, mapFind m i = some info ∧ t - info.lastTimeActive < c) ∧
        (∃ info, mapFind m j = some info ∧ c ≤ t - info.lastTimeActive) := by
    intro m ids t c j
    induction ids with
    | nil =>
      intro h
      simp [scanCooldown] at h
    | cons a rest ih =>
      intro h
      unfold scanCooldown at h
      cases hfind : mapFind m a with
      | none =>
        rw [hfind] at h
        simp at h
      | some info =>
        simp only [hfind] at h
        split at h
        · obtain ⟨pre, post, hids, hpre, hj⟩ := ih h
          refine ⟨a :: pre, post, by rw [hids]; rfl, ?_, hj⟩
          intro i hi
          rcases List.mem_cons.mp hi with hi | hi
          · subst hi
            exact ⟨info, hfind, by assumption⟩
          · exact hpre i hi
        · have haj : a = j := by simpa using h
          subst haj
          refine ⟨[], rest, rfl, by simp, ⟨info, hfind, by linarith [not_lt.mp (by assumption)]⟩⟩
  refine ⟨hscanChar, ?_, ?_, ?_⟩
  · intro st t newObject policy randPick l a hinit hkeys hcool hin hsome
    obtain ⟨info, hinfo⟩ := Option.isSome_iff_exists.mp hsome
    have hkey := keysConsistent_find st hkeys a info hinfo
    have hne : st.inactiveObjectIDPool.isEmpty = false := by
      rw [hin]
      simp [List.isEmpty_iff]
    have hlast : st.inactiveObjectIDPool.getLast? = some a := by
      rw [hin]
      exact List.getLast?_concat _
    unfold unpoolObject unpoolFromInactive
    rw [hinit, hne]
    simp only [Bool.false_eq_true, if_false, if_true, if_pos hcool, hlast]
    simp only [hinfo, checkoutSlot]
    split <;> simp [unpooledID, hkey]
  · intro st t newObject policy randPick j hinit hkeys hcool hscan
    obtain ⟨pre, post, hids, hpre, info, hinfoj, hcooled⟩ := hscanChar _ _ _ _ _ hscan
    have hkey := keysConsistent_find st hkeys j info hinfoj
    have hne : st.inactiveObjectIDPool.isEmpty = false := by
      rw [hids]
      cases pre <;> simp
    have hnotlt : ¬st.cooldownTimeSeconds < KINDA_SMALL_NUMBER := not_lt.mpr hcool
    unfold unpoolObject unpoolFromInactive
    rw [hinit, hne]
    simp only [Bool.false_eq_true, if_false, if_true, if_neg hnotlt, hscan]
    simp only [hinfoj, checkoutSlot]
    split <;> simp [unpooledID, hkey]
  · intro st t newObject policy randPick hinit hcool hne hscan
    have hne' : st.inactiveObjectIDPool.isEmpty = false := by
      cases hl : st.inactiveObjectIDPool
      · exact absurd hl hne
      · simp [hl]
    have hnotlt : ¬st.cooldownTimeSeconds < KINDA_SMALL_NUMBER := not_lt.mpr hcool
    unfold unpoolObject unpoolFromInactive
    rw [hinit, hne']
    simp only [Bool.false_eq_true, if_false, if_true, if_neg hnotlt, hscan]
    split
    · rename_i hroom
      cases hcreate : createNewPoolEntry st t newObject with
      | none => simp [unpooledID]
      | some pr =>
        obtain ⟨info, st1⟩ := pr
        have hid : info.objectPoolID = st.currentPoolIDIndex + 1 := by
          unfold createNewPoolEntry at hcreate
          split at hcreate
          · simp at hcreate
          · cases newObject with
            | none => simp at hcreate
            | some obj =>
              simp only [Option.some.injEq] at hcreate
              have hinfo := congrArg Prod.fst hcreate
              dsimp only at hinfo
              rw [← hinfo]
        right
        simp only [checkoutSlot]
        split <;> simp [unpooledID, hid]
    · left
      simp [unpooledID]

/-- Witness for C5's amended theorem: in stC1b (no cooldown, inactive list
[0]) Acquire pops slot 0. -/
theorem C5_selection_order_witness :
    (stC1b.bHasBeenInit = true ∧ keysConsistentB stC1b = true ∧
      stC1b.cooldownTimeSeconds < KINDA_SMALL_NUMBER ∧
      stC1b.inactiveObjectIDPool = [] ++ [0] ∧
      (mapFind stC1b.objectPool 0).isSome = true) ∧
    unpooledID
      (unpoolObject stC1b 4 none EBFPooledObjectReclaimPolicy.nonReclaimable 0) = some 0 := by
  refine ⟨⟨by decide, by decide, by with_unfolding_all decide, by decide, by decide⟩, ?_⟩
  exact C5_selection_order.2.1 stC1b 4 none EBFPooledObjectReclaimPolicy.nonReclaimable 0 [] 0
    (by decide) (by decide) (by with_unfolding_all decide) (by decide) (by decide)

theorem sameShape_refl (st : PoolState) : SameShape st st :=
  ⟨rfl, rfl, rfl, fun _ h => h⟩

theorem sameShape_trans {a b c : PoolState} (h1 : SameShape a b) (h2 : SameShape b c) :
    SameShape a c := by
  obtain ⟨l1, n1, i1, k1⟩ := h1
  obtain ⟨l2, n2, i2, k2⟩ := h2
  exact ⟨l2.trans l1, n2.trans n1, i2.trans i1, fun id h => k2 id (k1 id h)⟩

theorem sameShape_stepOK {a b : PoolState} (h : SameShape a b) : StepOK a b := by
  obtain ⟨l, n, i, k⟩ := h
  exact ⟨fun hs => by rw [l, n]; exact hs, le_of_eq i.symm, fun id hnone _ => k id hnone⟩

theorem stepOK_refl (st : PoolState) : StepOK st st :=
  sameShape_stepOK (sameShape_refl st)

theorem stepOK_trans {a b c : PoolState} (h1 : StepOK a b) (h2 : StepOK b c) : StepOK a c := by
  obtain ⟨s1, i1, k1⟩ := h1
  obtain ⟨s2, i2, k2⟩ := h2
  exact ⟨fun hs => s2 (s1 hs), i1.trans i2,
    fun id hnone hle => k2 id (k1 id hnone hle) (hle.trans i1)⟩

theorem checkoutSlot_sameShape (st : PoolState) (key : Int) (info : FBFPooledObjectInfo)
    (t : ℚ) (policy : EBFPooledObjectReclaimPolicy)
    (h : (mapFind st.objectPool key).isSome = true) :
    SameShape st (checkoutSlot st key info t policy).2 := by
  unfold checkoutSlot
  dsimp only
  refine ⟨rfl, ?_, rfl, ?_⟩
  · unfold getPoolNum
    dsimp only
    rw [mapAdd_length_of_found _ _ _ h]
  · intro id0 hnone
    dsimp only
    rw [mapFind_mapAdd]
    split
    · rename_i hkey
      subst hkey
      rw [hnone] at h
      simp at h
    · exact hnone

theorem returnInternal_sameShape (st : PoolState) (id ck : Int) (skip : Bool) :
    SameShape st (returnToPool_Internal st id ck skip).2 := by
  unfold returnToPool_Internal
  cases hfind : mapFind st.objectPool id with
  | none => exact sameShape_refl st
  | some info =>
    dsimp only
    split
    · refine ⟨rfl, ?_, rfl, ?_⟩
      · unfold getPoolNum
        dsimp only
        rw [mapAdd_length_of_found]
        rw [hfind]
        rfl
      · intro id0 hnone
        dsimp only
        rw [mapFind_mapAdd]
        split
        · rename_i hkey
          subst hkey
          rw [hnone] at hfind
          simp at hfind
        · exact hnone
    · exact sameShape_refl st

theorem tryReclaim_sameShape (st : PoolState) (r : Nat) :
    SameShape st (tryReclaimUnpooledObject st r).2 := by
  unfold tryReclaimUnpooledObject
  split
  · dsimp only
    cases st.reclaimableUnpooledObjects.get? _ with
    | none => exact sameShape_refl st
    | some entry =>
      dsimp only
      cases hret : returnToPool_Internal st entry.poolID entry.checkoutID true with
      | mk b st1 =>
        have := returnInternal_sameShape st entry.poolID entry.checkoutID true
        rw [hret] at this
        cases b
        · exact this
        · exact this
  · exact sameShape_refl st

theorem createNewPoolEntry_spec (st : PoolState) (t : ℚ) (o : Option Nat)
    (info : FBFPooledObjectInfo) (st' : PoolState)
    (h : createNewPoolEntry st t o = some (info, st')) :
    StepOK st st' ∧ getPoolNum st' ≤ st'.poolLimit ∧ st'.poolLimit = st.poolLimit ∧
    info.objectPoolID = st.currentPoolIDIndex + 1 ∧
    st'.currentPoolIDIndex = st.currentPoolIDIndex + 1 ∧
    mapFind st'.objectPool info.objectPoolID = some info := by
  unfold createNewPoolEntry at h
  split at h
  · simp at h
  · rename_i hguard
    cases o with
    | none => simp at h
    | some obj =>
      simp only [Option.some.injEq] at h
      have hinfo := congrArg Prod.fst h
      have hst := congrArg Prod.snd h
      dsimp only at hinfo hst
      subst hinfo
      subst hst
      have hlt : getPoolNum st < st.poolLimit := by
        rcases not_or.mp hguard with ⟨h1, -⟩
        exact lt_of_not_le (fun hle => h1 hle)
      have hlen := mapAdd_length_le st.objectPool (st.currentPoolIDIndex + 1)
        { pooledObject := obj
          objectPoolID := st.currentPoolIDIndex + 1
          creationTime := t
          lastTimeActive :=
            t - (if st.cooldownTimeSeconds > 0 then
                  st.cooldownTimeSeconds + KINDA_SMALL_NUMBER else 0)
          objectCheckoutID := bump16 (-1)
          bActive := false
          bIsReclaimable := false }
      unfold getPoolNum at hlt
      refine ⟨⟨?_, ?_, ?_⟩, ?_, rfl, rfl, rfl, mapFind_mapAdd_self _ _ _⟩
      · intro hs
        unfold getPoolNum
        dsimp only
        omega
      · dsimp only
        omega
      · intro id0 hnone hle
        dsimp only
        rw [mapFind_mapAdd]
        split
        · rename_i hkey
          omega
        · exact hnone
      · unfold getPoolNum
        dsimp only
        omega

theorem adoptObject_stepOK (st : PoolState) (t : ℚ) (o : Option Nat) (cm : Bool) :
    StepOK st (adoptObject st t o cm).2 := by
  unfold adoptObject
  split
  · exact stepOK_refl st
  · rename_i hguard
    cases o with
    | none =>
      exact absurd (Or.inl (Or.inr rfl))
        (by
          intro hc
          exact hguard (by tauto))
    | some obj =>
      dsimp only
      have hlt : getPoolNum st < st.poolLimit := by
        have := not_or.mp hguard
        have h2 := not_or.mp this.2
        have h3 := not_or.mp h2.2
        exact lt_of_not_le h3.1
      refine ⟨fun _ => ?_, by dsimp only; omega, ?_⟩
      · unfold getPoolNum
        dsimp only
        have := mapAdd_length_le st.objectPool (st.currentPoolIDIndex + 1)
          { pooledObject := obj
            objectPoolID := st.currentPoolIDIndex + 1
            creationTime := t
            lastTimeActive :=
              t - (if st.cooldownTimeSeconds > 0 then
                    st.cooldownTimeSeconds + KINDA_SMALL_NUMBER else 0)
            objectCheckoutID := bump16 (-1)
            bActive := false
            bIsReclaimable := false }
        unfold getPoolNum at hlt
        omega
      · intro id0 hnone hle
        dsimp only
        rw [mapFind_mapAdd]
        split
        · rename_i hkey
          omega
        · exact hnone

theorem returnToPool_sameShape (st : PoolState) (h : Option HandleState) (b : Bool)
    (st' : PoolState) (hret : returnToPool st h = BFRes.ok (b, st')) : SameShape st st' := by
  unfold returnToPool at hret
  split at hret
  · cases h with
    | none => simp at hret
    | some hh =>
      dsimp only at hret
      split at hret
      · simp only [BFRes.ok.injEq] at hret
        have hst := congrArg Prod.snd hret
        dsimp only at hst
        subst hst
        exact sameShape_refl st
      · cases hfind : mapFind st.objectPool hh.objectPoolID with
        | none =>
          rw [hfind] at hret
          simp at hret
        | some info =>
          simp only [hfind] at hret
          simp only [BFRes.ok.injEq] at hret
          have hst := congrArg Prod.snd hret
          dsimp only at hst
          subst hst
          refine ⟨rfl, ?_, rfl, ?_⟩
          · unfold getPoolNum
            dsimp only
            rw [mapAdd_length_of_found]
            rw [hfind]
            rfl
          · intro id0 hnone
            dsimp only
            rw [mapFind_mapAdd]
            split
            · rename_i hkey
              subst hkey
              rw [hnone] at hfind
              simp at hfind
            · exact hnone
  · simp only [BFRes.ok.injEq] at hret
    have hst := congrArg Prod.snd hret
    dsimp only at hst
    subst hst
    exact sameShape_refl st

theorem stealObject_stepOK (st : PoolState) (id ck : Int) :
    StepOK st (stealObject st id ck).2 := by
  unfold stealObject
  split
  · cases hfind : mapFind st.objectPool id with
    | none => exact stepOK_refl st
    | some info =>
      dsimp only
      split
      · exact stepOK_refl st
      · refine ⟨fun hs => ?_, le_refl _, ?_⟩
        · unfold getPoolNum at hs ⊢
          dsimp only
          have := mapRemove_length_le st.objectPool id
          omega
        · intro id0 hnone _
          dsimp only
          rw [mapFind_mapRemove]
          split
          · rfl
          · exact hnone
  · exact stepOK_refl st

theorem removeInactiveLoop_spec (k : Nat) :
    ∀ (m : PoolMap) (inact : List Int) (m' : PoolMap) (i' : List Int),
      removeInactiveLoop m inact k = BFRes.ok (m', i') →
      (m'.length : Int) ≤ (m.length : Int) - k ∧
      ∀ id0 : Int, mapFind m id0 = none → mapFind m' id0 = none := by
  induction k with
  | zero =>
    intro m inact m' i' h
    simp [removeInactiveLoop] at h
    obtain ⟨hm, -⟩ := h
    subst hm
    exact ⟨by omega, fun _ hn => hn⟩
  | succ k' ih =>
    intro m inact m' i' h
    unfold removeInactiveLoop at h
    cases hl : inact.getLast? with
    | none =>
      rw [hl] at h
      simp at h
    | some id =>
      simp only [hl] at h
      cases hf : mapFind m id with
      | none =>
        rw [hf] at h
        simp at h
      | some v =>
        simp only [hf] at h
        obtain ⟨hlen, hkeys⟩ := ih _ _ _ _ h
        have hrem := mapRemove_length_lt m id (by rw [hf]; rfl)
        refine ⟨?_, ?_⟩
        · push_cast at hlen ⊢
          omega
        · intro id0 hnone
          refine hkeys id0 ?_
          rw [mapFind_mapRemove]
          split
          · rfl
          · exact hnone

theorem clearLoop_spec (ids : List Int) :
    ∀ (m m' : PoolMap), clearLoop m ids = BFRes.ok m' →
      m'.length ≤ m.length ∧
      ∀ id0 : Int, mapFind m id0 = none → mapFind m' id0 = none := by
  induction ids with
  | nil =>
    intro m m' h
    simp [clearLoop] at h
    subst h
    exact ⟨le_refl _, fun _ hn => hn⟩
  | cons id rest ih =>
    intro m m' h
    unfold clearLoop at h
    cases hf : mapFind m id with
    | none =>
      rw [hf] at h
      simp at h
    | some v =>
      simp only [hf] at h
      obtain ⟨hlen, hkeys⟩ := ih _ _ h
      refine ⟨le_trans hlen (mapRemove_length_le m id), ?_⟩
      intro id0 hnone
      refine hkeys id0 ?_
      rw [mapFind_mapRemove]
      split
      · rfl
      · exact hnone

theorem evalLoop_spec (fuel : Nat) :
    ∀ (m : PoolMap) (arr : List Int) (i : Nat) (t mx : ℚ) (r : Nat),
      arr.length - i ≤ fuel →
      ∀ (m' : PoolMap) (arr' : List Int) (n : Nat),
        evalOccupancyLoop m arr i t mx r = BFRes.ok (m', arr', n) →
        m'.length ≤ m.length ∧
        ∀ id0 : Int, mapFind m id0 = none → mapFind m' id0 = none := by
  induction fuel with
  | zero =>
    intro m arr i t mx r hle m' arr' n h
    unfold evalOccupancyLoop at h
    rw [dif_neg (by omega)] at h
    simp at h
    obtain ⟨h1, -, -⟩ := h
    subst h1
    exact ⟨le_refl _, fun _ hn => hn⟩
  | succ f ih =>
    intro m arr i t mx r hle m' arr' n h
    unfold evalOccupancyLoop at h
    by_cases hi : i < arr.length
    · rw [dif_pos hi] at h
      dsimp only at h
      cases hf : mapFind m (arr.get ⟨i, hi⟩) with
      | none =>
        rw [hf] at h
        simp at h
      | some info =>
        simp only [hf] at h
        split at h
        · have hlen : (removeAtSwap arr i).length = arr.length - 1 := by
            unfold removeAtSwap
            cases hgl : arr.getLast? with
            | none =>
              rw [List.getLast?_eq_none_iff] at hgl
              subst hgl
              simp at hi
            | some last => simp [List.length_dropLast, List.length_set]
          have hrec := ih _ _ _ _ _ _ (by omega) _ _ _ h
          refine ⟨le_trans hrec.1 (mapRemove_length_le ..), ?_⟩
          intro id0 hnone
          refine hrec.2 id0 ?_
          rw [mapFind_mapRemove]
          split
          · rfl
          · exact hnone
        · exact ih _ _ _ _ _ _ (by omega) _ _ _ h
    · rw [dif_neg hi] at h
      simp at h
      obtain ⟨h1, -, -⟩ := h
      subst h1
      exact ⟨le_refl _, fun _ hn => hn⟩

theorem evaluatePoolOccupancy_stepOK (st : PoolState) (t : ℚ) (b : Bool) (st' : PoolState)
    (h : evaluatePoolOccupancy st t = BFRes.ok (b, st')) : StepOK st st' := by
  unfold evaluatePoolOccupancy at h
  split at h
  · cases hloop : evalOccupancyLoop st.objectPool st.inactiveObjectIDPool 0 t
        st.maxObjectInactiveOccupancySeconds 0 with
    | crash =>
      rw [hloop] at h
      simp at h
    | ok res =>
      obtain ⟨m, arr, nrem⟩ := res
      simp only [hloop] at h
      simp only [BFRes.ok.injEq] at h
      have hst := congrArg Prod.snd h
      dsimp only at hst
      subst hst
      have hspec := evalLoop_spec (st.inactiveObjectIDPool.length)
        st.objectPool st.inactiveObjectIDPool 0 t st.maxObjectInactiveOccupancySeconds 0
        (by omega) m arr nrem hloop
      refine ⟨fun hs => ?_, le_refl _, fun id0 hnone _ => hspec.2 id0 hnone⟩
      unfold getPoolNum at hs ⊢
      dsimp only
      have := hspec.1
      omega
  · simp only [BFRes.ok.injEq] at h
    have hst := congrArg Prod.snd h
    dsimp only at hst
    subst hst
    exact stepOK_refl st

theorem tick_stepOK (st : PoolState) (t : ℚ) (st' : PoolState)
    (h : tick st t = BFRes.ok st') : StepOK st st' := by
  unfold tick at h
  split at h
  · cases heval : evaluatePoolOccupancy st t with
    | crash =>
      rw [heval] at h
      simp at h
    | ok res =>
      obtain ⟨b, s1⟩ := res
      rw [heval] at h
      simp at h
      subst h
      exact evaluatePoolOccupancy_stepOK st t b s1 heval
  · simp at h
    subst h
    exact stepOK_refl st

theorem removeInactiveNum_spec (st : PoolState) (k : Int) (b : Bool) (st1 : PoolState)
    (h : removeInactiveNumFromPool st k = BFRes.ok (b, st1)) :
    st1.poolLimit = st.poolLimit ∧ st1.currentPoolIDIndex = st.currentPoolIDIndex ∧
    getPoolNum st1 ≤ getPoolNum st ∧
    (∀ id0 : Int, mapFind st.objectPool id0 = none → mapFind st1.objectPool id0 = none) ∧
    (st.bHasBeenInit = true → ¬k > getInactivePoolNum st →
      getPoolNum st1 ≤ getPoolNum st - k.toNat) := by
  unfold removeInactiveNumFromPool at h
  split at h
  · split at h
    · rename_i hinit hguard
      simp only [BFRes.ok.injEq] at h
      have hst := congrArg Prod.snd h
      dsimp only at hst
      subst hst
      exact ⟨rfl, rfl, le_refl _, fun _ hn => hn, fun _ hng => absurd hguard hng⟩
    · cases hloop : removeInactiveLoop st.objectPool st.inactiveObjectIDPool k.toNat with
      | crash =>
        rw [hloop] at h
        simp at h
      | ok res =>
        obtain ⟨m, inact⟩ := res
        simp only [hloop] at h
        simp only [BFRes.ok.injEq] at h
        have hst := congrArg Prod.snd h
        dsimp only at hst
        subst hst
        have hspec := removeInactiveLoop_spec k.toNat st.objectPool st.inactiveObjectIDPool
          m inact hloop
        refine ⟨rfl, rfl, ?_, fun id0 hn => hspec.2 id0 hn, fun _ _ => ?_⟩
        · unfold getPoolNum
          dsimp only
          have := hspec.1
          omega
        · unfold getPoolNum
          dsimp only
          have := hspec.1
          omega
  · simp only [BFRes.ok.injEq] at h
    have hst := congrArg Prod.snd h
    dsimp only at hst
    subst hst
    exact ⟨rfl, rfl, le_refl _, fun _ hn => hn, fun hinit hng => by
      rename_i hni
      exact absurd hinit hni⟩

theorem removeInactiveNum_stepOK (st : PoolState) (k : Int) (b : Bool) (st1 : PoolState)
    (h : removeInactiveNumFromPool st k = BFRes.ok (b, st1)) : StepOK st st1 := by
  obtain ⟨hl, hi, hs, hk, -⟩ := removeInactiveNum_spec st k b st1 h
  exact ⟨fun hle => by omega, le_of_eq hi.symm, fun id0 hn _ => hk id0 hn⟩

theorem clearInactive_stepOK (st : PoolState) (b : Bool) (st1 : PoolState)
    (h : clearInactiveObjectsPool st = BFRes.ok (b, st1)) : StepOK st st1 := by
  unfold clearInactiveObjectsPool at h
  split at h
  · split at h
    · simp only [BFRes.ok.injEq] at h
      have hst := congrArg Prod.snd h
      dsimp only at hst
      subst hst
      exact stepOK_refl st
    · cases hloop : clearLoop st.objectPool st.inactiveObjectIDPool with
      | crash =>
        rw [hloop] at h
        simp at h
      | ok m =>
        simp only [hloop] at h
        simp only [BFRes.ok.injEq] at h
        have hst := congrArg Prod.snd h
        dsimp only at hst
        subst hst
        have hspec := clearLoop_spec st.inactiveObjectIDPool st.objectPool m hloop
        refine ⟨fun hs => ?_, le_refl _, fun id0 hn _ => hspec.2 id0 hn⟩
        unfold getPoolNum at hs ⊢
        dsimp only
        have := hspec.1
        omega
  · simp only [BFRes.ok.injEq] at h
    have hst := congrArg Prod.snd h
    dsimp only at hst
    subst hst
    exact stepOK_refl st

theorem setPoolLimit_stepOK (st : PoolState) (nlim : Int) (b : Bool) (st1 : PoolState)
    (h : setPoolLimit st nlim = BFRes.ok (b, st1)) : StepOK st st1 := by
  unfold setPoolLimit at h
  split at h
  · split at h
    · rename_i heq
      simp only [BFRes.ok.injEq] at h
      have hst := congrArg Prod.snd h
      dsimp only at hst
      subst hst
      exact stepOK_refl st
    · split at h
      · rename_i hgt
        simp only [BFRes.ok.injEq] at h
        have hst := congrArg Prod.snd h
        dsimp only at hst
        subst hst
        exact ⟨fun hs => by unfold getPoolNum at hs ⊢; dsimp only; omega, le_refl _,
          fun id0 hn _ => hn⟩
      · dsimp only at h
        split at h
        · split at h
          · rename_i hfits
            simp only [BFRes.ok.injEq] at h
            have hst := congrArg Prod.snd h
            dsimp only at hst
            subst hst
            exact ⟨fun _ => by unfold getPoolNum at hfits ⊢; dsimp only; omega, le_refl _,
              fun id0 hn _ => hn⟩
          · rename_i hactive hbig
            cases hrem : removeInactiveNumFromPool st (getPoolNum st - nlim) with
            | crash =>
              rw [hrem] at h
              simp at h
            | ok res =>
              obtain ⟨b2, s2⟩ := res
              simp only [hrem] at h
              simp only [BFRes.ok.injEq] at h
              have hst := congrArg Prod.snd h
              dsimp only at hst
              subst hst
              obtain ⟨hl2, hi2, hs2, hk2, hexact⟩ := removeInactiveNum_spec st _ b2 s2 hrem
              rename_i hinit heq2 hgt2
              have hguard : ¬getPoolNum st - nlim > getInactivePoolNum st := by omega
              have hsz := hexact hinit hguard
              have hg2 : getPoolNum { s2 with poolLimit := nlim } = getPoolNum s2 := rfl
              refine ⟨fun _ => ?_, le_of_eq hi2.symm, fun id0 hn _ => hk2 id0 hn⟩
              rw [hg2]
              show getPoolNum s2 ≤ nlim
              omega
        · simp only [BFRes.ok.injEq] at h
          have hst := congrArg Prod.snd h
          dsimp only at hst
          subst hst
          exact stepOK_refl st
  · simp only [BFRes.ok.injEq] at h
    have hst := congrArg Prod.snd h
    dsimp only at hst
    subst hst
    exact stepOK_refl st

theorem inactiveOnly_sameShape (st : PoolState) (l : List Int) :
    SameShape st { st with inactiveObjectIDPool := l } :=
  ⟨rfl, rfl, rfl, fun _ hn => hn⟩

theorem unpoolFromInactive_stepOK (st : PoolState) (t : ℚ) (o : Option Nat)
    (p : EBFPooledObjectReclaimPolicy) (st' : PoolState)
    (h : unpoolResState (unpoolFromInactive st t o p) = some st') : StepOK st st' := by
  unfold unpoolFromInactive at h
  dsimp only at h
  split at h
  · cases hgl : st.inactiveObjectIDPool.getLast? with
    | none =>
      rw [hgl] at h
      simp [unpoolResState] at h
    | some id =>
      simp only [hgl] at h
      cases hf : mapFind st.objectPool id with
      | none =>
        simp only [show ({ st with
            inactiveObjectIDPool := st.inactiveObjectIDPool.dropLast } : PoolState).objectPool =
            st.objectPool from rfl, hf] at h
        simp [unpoolResState] at h
      | some info =>
        simp only [show ({ st with
            inactiveObjectIDPool := st.inactiveObjectIDPool.dropLast } : PoolState).objectPool =
            st.objectPool from rfl, hf] at h
        simp only [unpoolResState, Option.some.injEq] at h
        rw [← h]
        refine sameShape_stepOK (sameShape_trans
          (inactiveOnly_sameShape st st.inactiveObjectIDPool.dropLast) ?_)
        exact checkoutSlot_sameShape _ id info t p (by
          show (mapFind st.objectPool id).isSome = true
          rw [hf]
          rfl)
  · cases hscan : scanCooldown st.objectPool st.inactiveObjectIDPool t st.cooldownTimeSeconds with
    | crash =>
      rw [hscan] at h
      simp [unpoolResState] at h
    | ok oid =>
      rw [hscan] at h
      cases oid with
      | some id =>
        dsimp only at h
        cases hf : mapFind st.objectPool id with
        | none =>
          rw [hf] at h
          simp [unpoolResState] at h
        | some info =>
          simp only [hf] at h
          simp only [unpoolResState, Option.some.injEq] at h
          rw [← h]
          have h1 := checkoutSlot_sameShape st id info t p (by rw [hf]; rfl)
          refine sameShape_stepOK (sameShape_trans h1 ?_)
          exact inactiveOnly_sameShape _ _
      | none =>
        dsimp only at h
        split at h
        · cases hc : createNewPoolEntry st t o with
          | none =>
            rw [hc] at h
            simp [unpoolResState] at h
          | some pr =>
            obtain ⟨info, st1⟩ := pr
            simp only [hc] at h
            simp only [unpoolResState, Option.some.injEq] at h
            rw [← h]
            obtain ⟨hstep, -, -, -, -, hfind1⟩ := createNewPoolEntry_spec st t o info st1 hc
            refine stepOK_trans hstep (sameShape_stepOK (sameShape_trans ?_
              (inactiveOnly_sameShape _ _)))
            exact checkoutSlot_sameShape st1 info.objectPoolID info t p (by rw [hfind1]; rfl)
        · simp only [unpoolResState, Option.some.injEq] at h
          rw [← h]
          exact stepOK_refl st

theorem unpoolObject_stepOK (st : PoolState) (t : ℚ) (o : Option Nat)
    (p : EBFPooledObjectReclaimPolicy) (r : Nat) (st' : PoolState)
    (h : unpoolResState (unpoolObject st t o p r) = some st') : StepOK st st' := by
  unfold unpoolObject at h
  split at h
  · split at h
    · split at h
      · cases hc : createNewPoolEntry st t o with
        | none =>
          rw [hc] at h
          simp only [unpoolResState, Option.some.injEq] at h
          rw [← h]
          exact stepOK_refl st
        | some pr =>
          obtain ⟨info, st1⟩ := pr
          simp only [hc] at h
          obtain ⟨hstep, -, -, -, -, -⟩ := createNewPoolEntry_spec st t o info st1 hc
          exact stepOK_trans hstep (unpoolFromInactive_stepOK st1 t o p st' h)
      · split at h
        · cases hrec : tryReclaimUnpooledObject st r with
          | mk oid st1 =>
            simp only [hrec] at h
            have hshape : SameShape st st1 := by
              have := tryReclaim_sameShape st r
              rw [hrec] at this
              exact this
            split at h
            · cases hf : mapFind st1.objectPool oid with
              | none =>
                rw [hf] at h
                simp [unpoolResState] at h
              | some info =>
                simp only [hf] at h
                simp only [unpoolResState, Option.some.injEq] at h
                rw [← h]
                refine sameShape_stepOK (sameShape_trans hshape ?_)
                exact checkoutSlot_sameShape st1 oid info t p (by rw [hf]; rfl)
            · simp only [unpoolResState, Option.some.injEq] at h
              rw [← h]
              exact sameShape_stepOK hshape
        · simp only [unpoolResState, Option.some.injEq] at h
          rw [← h]
          exact stepOK_refl st
    · exact unpoolFromInactive_stepOK st t o p st' h
  · simp only [unpoolResState, Option.some.injEq] at h
    rw [← h]
    exact stepOK_refl st

theorem reclaimMatchLoop_sameShape (entries : List FReclaimableUnpooledObjectInfo) :
    ∀ (st : PoolState) (t : ℚ) (f : Nat → Bool) (p : EBFPooledObjectReclaimPolicy)
      (st' : PoolState),
      unpoolResState (reclaimMatchLoop st entries t f p) = some st' → SameShape st st' := by
  induction entries with
  | nil =>
    intro st t f p st' h
    simp only [reclaimMatchLoop, unpoolResState, Option.some.injEq] at h
    rw [← h]
    exact sameShape_refl st
  | cons rr rest ih =>
    intro st t f p st' h
    unfold reclaimMatchLoop at h
    cases hf : mapFind st.objectPool rr.poolID with
    | none =>
      rw [hf] at h
      simp [unpoolResState] at h
    | some info =>
      simp only [hf] at h
      split at h
      · cases hret : returnToPool_Internal st rr.poolID rr.checkoutID true with
        | mk b st1 =>
          have hshape : SameShape st st1 := by
            have := returnInternal_sameShape st rr.poolID rr.checkoutID true
            rw [hret] at this
            exact this
          simp only [hret] at h
          cases b with
          | true =>
            dsimp only at h
            cases hf1 : mapFind st1.objectPool rr.poolID with
            | none =>
              rw [hf1] at h
              simp [unpoolResState] at h
            | some info1 =>
              simp only [hf1] at h
              simp only [unpoolResState, Option.some.injEq] at h
              rw [← h]
              refine sameShape_trans hshape (sameShape_trans ?_ (inactiveOnly_sameShape _ _))
              exact checkoutSlot_sameShape st1 rr.poolID info1 t p (by rw [hf1]; rfl)
          | false =>
            dsimp only at h
            exact sameShape_trans hshape (ih st1 t f p st' h)
      · exact ih st t f p st' h

theorem unpoolObjectByTag_stepOK (st : PoolState) (t : ℚ) (tv : Bool) (f : Nat → Bool)
    (p : EBFPooledObjectReclaimPolicy) (st' : PoolState)
    (h : unpoolResState (unpoolObjectByTag st t tv f p) = some st') : StepOK st st' := by
  unfold unpoolObjectByTag at h
  split at h
  · split at h
    · simp only [unpoolResState, Option.some.injEq] at h
      rw [← h]
      exact stepOK_refl st
    · cases hscan : scanMatch st.objectPool st.inactiveObjectIDPool f with
      | crash =>
        rw [hscan] at h
        simp [unpoolResState] at h
      | ok oid =>
        rw [hscan] at h
        cases oid with
        | some id =>
          dsimp only at h
          cases hf : mapFind st.objectPool id with
          | none =>
            rw [hf] at h
            simp [unpoolResState] at h
          | some info =>
            simp only [hf] at h
            simp only [unpoolResState, Option.some.injEq] at h
            rw [← h]
            refine sameShape_stepOK (sameShape_trans ?_ (inactiveOnly_sameShape _ _))
            exact checkoutSlot_sameShape st id info t p (by rw [hf]; rfl)
        | none =>
          dsimp only at h
          split at h
          · exact sameShape_stepOK
              (reclaimMatchLoop_sameShape st.reclaimableUnpooledObjects st t f p st' h)
          · simp only [unpoolResState, Option.some.injEq] at h
            rw [← h]
            exact stepOK_refl st
  · simp only [unpoolResState, Option.some.injEq] at h
    rw [← h]
    exact stepOK_refl st

theorem unpoolObjectByPredicate_stepOK (st : PoolState) (t : ℚ) (hp : Bool) (f : Nat → Bool)
    (p : EBFPooledObjectReclaimPolicy) (st' : PoolState)
    (h : unpoolResState (unpoolObjectByPredicate st t hp f p) = some st') : StepOK st st' := by
  unfold unpoolObjectByPredicate at h
  split at h
  · split at h
    · simp only [unpoolResState, Option.some.injEq] at h
      rw [← h]
      exact stepOK_refl st
    · cases hscan : scanMatch st.objectPool st.inactiveObjectIDPool f with
      | crash =>
        rw [hscan] at h
        simp [unpoolResState] at h
      | ok oid =>
        rw [hscan] at h
        cases oid with
        | some id =>
          dsimp only at h
          cases hf : mapFind st.objectPool id with
          | none =>
            rw [hf] at h
            simp [unpoolResState] at h
          | some info =>
            simp only [hf] at h
            simp only [unpoolResState, Option.some.injEq] at h
            rw [← h]
            refine sameShape_stepOK (sameShape_trans ?_ (inactiveOnly_sameShape _ _))
            exact checkoutSlot_sameShape st id info t p (by rw [hf]; rfl)
        | none =>
          dsimp only at h
          split at h
          · exact sameShape_stepOK
              (reclaimMatchLoop_sameShape st.reclaimableUnpooledObjects st t f p st' h)
          · simp only [unpoolResState, Option.some.injEq] at h
            rw [← h]
            exact stepOK_refl st
  · simp only [unpoolResState, Option.some.injEq] at h
    rw [← h]
    exact stepOK_refl st

theorem runOp_stepOK (st : PoolState) (op : PoolOp) (st' : PoolState)
    (h : runOp st op = BFRes.ok st') : StepOK st st' := by
  cases op with
  | unpool t o p r =>
    unfold runOp at h
    dsimp only at h
    cases hu : unpoolObject st t o p r with
    | crash => rw [hu] at h; simp at h
    | noObject s =>
      rw [hu] at h
      simp at h
      subst h
      exact unpoolObject_stepOK st t o p r _ (by rw [hu]; rfl)
    | handle a b s =>
      rw [hu] at h
      simp at h
      subst h
      exact unpoolObject_stepOK st t o p r _ (by rw [hu]; rfl)
  | unpoolByTag t tv f p =>
    unfold runOp at h
    dsimp only at h
    cases hu : unpoolObjectByTag st t tv f p with
    | crash => rw [hu] at h; simp at h
    | noObject s =>
      rw [hu] at h
      simp at h
      subst h
      exact unpoolObjectByTag_stepOK st t tv f p _ (by rw [hu]; rfl)
    | handle a b s =>
      rw [hu] at h
      simp at h
      subst h
      exact unpoolObjectByTag_stepOK st t tv f p _ (by rw [hu]; rfl)
  | unpoolByPredicate t hp f p =>
    unfold runOp at h
    dsimp only at h
    cases hu : unpoolObjectByPredicate st t hp f p with
    | crash => rw [hu] at h; simp at h
    | noObject s =>
      rw [hu] at h
      simp at h
      subst h
      exact unpoolObjectByPredicate_stepOK st t hp f p _ (by rw [hu]; rfl)
    | handle a b s =>
      rw [hu] at h
      simp at h
      subst h
      exact unpoolObjectByPredicate_stepOK st t hp f p _ (by rw [hu]; rfl)
  | returnHandle hd =>
    unfold runOp at h
    dsimp only at h
    cases hr : returnToPool st hd with
    | crash => rw [hr] at h; simp at h
    | ok res =>
      obtain ⟨b, s⟩ := res
      rw [hr] at h
      simp at h
      subst h
      exact sameShape_stepOK (returnToPool_sameShape st hd b _ hr)
  | returnFromHandle id ck =>
    unfold runOp at h
    dsimp only at h
    simp at h
    subst h
    exact sameShape_stepOK (returnInternal_sameShape st id ck false)
  | steal id ck =>
    unfold runOp at h
    dsimp only at h
    simp at h
    subst h
    exact stealObject_stepOK st id ck
  | adopt t o cm =>
    unfold runOp at h
    dsimp only at h
    simp at h
    subst h
    exact adoptObject_stepOK st t o cm
  | setLimit n =>
    unfold runOp at h
    dsimp only at h
    cases hr : setPoolLimit st n with
    | crash => rw [hr] at h; simp at h
    | ok res =>
      obtain ⟨b, s⟩ := res
      rw [hr] at h
      simp at h
      subst h
      exact setPoolLimit_stepOK st n b _ hr
  | evalOccupancy t =>
    unfold runOp at h
    dsimp only at h
    cases hr : evaluatePoolOccupancy st t with
    | crash => rw [hr] at h; simp at h
    | ok res =>
      obtain ⟨b, s⟩ := res
      rw [hr] at h
      simp at h
      subst h
      exact evaluatePoolOccupancy_stepOK st t b _ hr
  | tickOp t =>
    unfold runOp at h
    dsimp only at h
    cases hr : tick st t with
    | crash => rw [hr] at h; simp at h
    | ok s =>
      rw [hr] at h
      simp at h
      subst h
      exact tick_stepOK st t _ hr
  | removeInactive n =>
    unfold runOp at h
    dsimp only at h
    cases hr : removeInactiveNumFromPool st n with
    | crash => rw [hr] at h; simp at h
    | ok res =>
      obtain ⟨b, s⟩ := res
      rw [hr] at h
      simp at h
      subst h
      exact removeInactiveNum_stepOK st n b _ hr
  | clearInactive =>
    unfold runOp at h
    dsimp only at h
    cases hr : clearInactiveObjectsPool st with
    | crash => rw [hr] at h; simp at h
    | ok res =>
      obtain ⟨b, s⟩ := res
      rw [hr] at h
      simp at h
      subst h
      exact clearInactive_stepOK st b _ hr

/-- C6. The capacity bound GetPoolSize() <= capacity holds after every
public operation completes: it is established by InitPool and preserved by
every Acquire variant, both Return routes, Steal, Adopt, SetPoolLimit, the
eviction sweep (directly or via Tick), RemoveInactiveNumFromPool and
ClearInactiveObjectsPool (crashing runs have no completed after-state). -/
theorem C6_capacity_bound :
    (∀ (params : FBFObjectPoolInitParams) (t : ℚ) (objs : Nat → Option Nat)
        (st0 : PoolState),
      initPool params t objs = some st0 → getPoolNum st0 ≤ st0.poolLimit) ∧
    (∀ (st : PoolState) (op : PoolOp) (st' : PoolState),
      runOp st op = BFRes.ok st' →
      getPoolNum st ≤ st.poolLimit → getPoolNum st' ≤ st'.poolLimit) := by
  constructor
  · intro params t objs st0 h
    unfold initPool at h
    split at h
    · simp at h
    · rename_i hguard
      simp only [Option.some.injEq] at h
      have hfold : ∀ (l : List Nat) (s : PoolState),
          getPoolNum s ≤ s.poolLimit →
          getPoolNum (l.foldl
            (fun s i =>
              match createNewPoolEntry s t (objs i) with
              | none => s
              | some (_, s') => s') s) ≤
          (l.foldl
            (fun s i =>
              match createNewPoolEntry s t (objs i) with
              | none => s
              | some (_, s') => s') s).poolLimit := by
        intro l
        induction l with
        | nil => exact fun s hs => hs
        | cons a rest ih =>
          intro s hs
          simp only [List.foldl_cons]
          apply ih
          cases hc : createNewPoolEntry s t (objs a) with
          | none => simpa [hc] using hs
          | some pr =>
            obtain ⟨i2, s2⟩ := pr
            have := (createNewPoolEntry_spec s t (objs a) i2 s2 hc).2.1
            simpa [hc] using this
      have hbase : getPoolNum
          { objectPool := []
            inactiveObjectIDPool := []
            reclaimableUnpooledObjects := []
            poolLimit := params.poolLimit
            cooldownTimeSeconds := params.cooldownTimeSeconds
            maxObjectInactiveOccupancySeconds := params.maxObjectInactiveOccupancySeconds
            bAdoptionOnlyPool := params.bAdoptionOnlyPool
            forceReturnReclaimStrategy := params.forceReturnReclaimStrategy
            currentPoolIDIndex := -1
            bHasBeenInit := false } ≤ params.poolLimit := by
        unfold getPoolNum
        dsimp only
        have : ¬params.poolLimit < 1 := by
          intro hc
          exact hguard (by tauto)
        simp
        omega
      rw [← h]
      exact hfold _ _ hbase
  · intro st op st' h hsize
    exact (runOp_stepOK st op st' h).1 hsize

/-- Witness for C6: a fresh initialisation satisfies the bound, and clearing
the inactive slot of stC1b preserves it. -/
theorem C6_capacity_bound_witness :
    (initPool paramsCycle 0 objsCycle = some (stCycle 0) ∧
      getPoolNum (stCycle 0) ≤ (stCycle 0).poolLimit) ∧
    (runOp stC1b PoolOp.clearInactive = BFRes.ok stAfterClear ∧
      getPoolNum stC1b ≤ stC1b.poolLimit ∧
      getPoolNum stAfterClear ≤ stAfterClear.poolLimit) := by
  have h1 : initPool paramsCycle 0 objsCycle = some (stCycle 0) := by
    with_unfolding_all decide
  have h2 : runOp stC1b PoolOp.clearInactive = BFRes.ok stAfterClear := by
    with_unfolding_all decide
  exact ⟨⟨h1, C6_capacity_bound.1 paramsCycle 0 objsCycle _ h1⟩,
    ⟨h2, by decide,
      C6_capacity_bound.2 stC1b PoolOp.clearInactive stAfterClear h2 (by decide)⟩⟩

theorem mapFind_none_of_not_mem_keys (m : PoolMap) (k : Int)
    (h : k ∉ m.map Prod.fst) : mapFind m k = none := by
  induction m with
  | nil => rfl
  | cons e rest ih =>
    obtain ⟨k'', v''⟩ := e
    simp only [List.map_cons, List.mem_cons] at h
    push_neg at h
    unfold mapFind
    rw [if_neg (fun hk => h.1 hk.symm)]
    exact ih h.2

theorem mapRemove_of_not_found (m : PoolMap) (k : Int)
    (h : mapFind m k = none) : mapRemove m k = m := by
  induction m with
  | nil => rfl
  | cons e rest ih =>
    obtain ⟨k'', v''⟩ := e
    unfold mapFind at h
    unfold mapRemove
    split at h
    · simp at h
    · rename_i hne
      rw [if_neg hne, ih h]

theorem mapRemove_length_nodup (m : PoolMap) (k : Int)
    (hnd : (m.map Prod.fst).Nodup) (h : (mapFind m k).isSome = true) :
    (mapRemove m k).length = m.length - 1 := by
  induction m with
  | nil => simp [mapFind] at h
  | cons e rest ih =>
    obtain ⟨k'', v''⟩ := e
    simp only [List.map_cons, List.nodup_cons] at hnd
    by_cases h1 : k'' = k
    · subst h1
      have hnone : mapFind rest k'' = none :=
        mapFind_none_of_not_mem_keys rest k'' hnd.1
      unfold mapRemove
      rw [if_pos rfl, mapRemove_of_not_found rest k'' hnone]
      simp
    · unfold mapFind at h
      rw [if_neg h1] at h
      unfold mapRemove
      rw [if_neg h1]
      have hlt := mapRemove_length_lt rest k h
      simp only [List.length_cons]
      rw [ih hnd.2 h]
      omega

/-- C8. Stealing through a matching (pool ID, checkout ID) pair removes the
slot from the table outright — GetPoolNum drops by one and the ID no longer
resolves — and returns the raw object; a stale pair returns nil and changes
nothing; and because pool IDs come from the ever-incrementing counter, an ID
that has been removed (and is at most the counter) never reappears under any
later public operation. -/
theorem C8_steal_spec :
    (∀ (st : PoolState) (id ck : Int) (info : FBFPooledObjectInfo),
      st.bHasBeenInit = true →
      mapFind st.objectPool id = some info →
      info.objectCheckoutID = ck →
      (st.objectPool.map Prod.fst).Nodup →
      (stealObject st id ck).1 = some info.pooledObject ∧
      getPoolNum (stealObject st id ck).2 = getPoolNum st - 1 ∧
      mapFind (stealObject st id ck).2.objectPool id = none) ∧
    (∀ (st : PoolState) (id ck : Int),
      (∀ info, mapFind st.objectPool id = some info → ¬info.objectCheckoutID = ck) →
      stealObject st id ck = (none, st)) ∧
    (∀ (st : PoolState) (op : PoolOp) (st' : PoolState) (id0 : Int),
      runOp st op = BFRes.ok st' →
      mapFind st.objectPool id0 = none →
      id0 ≤ st.currentPoolIDIndex →
      mapFind st'.objectPool id0 = none ∧ id0 ≤ st'.currentPoolIDIndex) := by
  refine ⟨?_, ?_, ?_⟩
  · intro st id ck info hinit hfind hck hnd
    unfold stealObject
    rw [hinit]
    simp only [hfind, if_true]
    rw [if_neg (by simp [hck])]
    refine ⟨rfl, ?_, ?_⟩
    · unfold getPoolNum
      dsimp only
      rw [mapRemove_length_nodup st.objectPool id hnd (by rw [hfind]; rfl)]
      have := mapRemove_length_lt st.objectPool id (by rw [hfind]; rfl)
      omega
    · dsimp only
      rw [mapFind_mapRemove]
      simp
  · intro st id ck hstale
    unfold stealObject
    split
    · cases hfind : mapFind st.objectPool id with
      | none => rfl
      | some info =>
        dsimp only
        rw [if_pos (hstale info hfind)]
    · rfl
  · intro st op st' id0 h hnone hle
    obtain ⟨-, hidx, hkeys⟩ := runOp_stepOK st op st' h
    exact ⟨hkeys id0 hnone hle, hle.trans hidx⟩

/-- Witness for C8 at stW8 (slot 5, checkout 3): a matching steal returns the
object and shrinks the table; a mismatched checkout is a no-op. -/
theorem C8_steal_spec_witness :
    (stW8.bHasBeenInit = true ∧ mapFind stW8.objectPool 5 = some slotW8 ∧
      slotW8.objectCheckoutID = 3 ∧ (stW8.objectPool.map Prod.fst).Nodup) ∧
    ((stealObject stW8 5 3).1 = some slotW8.pooledObject ∧
      getPoolNum (stealObject stW8 5 3).2 = getPoolNum stW8 - 1 ∧
      mapFind (stealObject stW8 5 3).2.objectPool 5 = none) ∧
    stealObject stW8 5 99 = (none, stW8) := by
  have hfind : mapFind stW8.objectPool 5 = some slotW8 := by
    with_unfolding_all decide
  refine ⟨⟨by with_unfolding_all decide, hfind, by decide, by with_unfolding_all decide⟩,
    C8_steal_spec.1 stW8 5 3 slotW8 (by with_unfolding_all decide) hfind (by decide)
      (by with_unfolding_all decide), ?_⟩
  exact C8_steal_spec.2.1 stW8 5 99 (by
    intro info hinfo
    rw [hfind] at hinfo
    cases hinfo
    decide)

theorem removeInactiveLoop_ok (k : Nat) :
    ∀ (m : PoolMap) (inact : List Int),
      k ≤ inact.length → inact.Nodup →
      (∀ id ∈ inact, (mapFind m id).isSome = true) →
      ∃ m' i', removeInactiveLoop m inact k = BFRes.ok (m', i') ∧
        (m'.length : Int) ≤ (m.length : Int) - k := by
  induction k with
  | zero =>
    intro m inact hk hnd hmem
    exact ⟨m, inact, rfl, by omega⟩
  | succ k' ih =>
    intro m inact hk hnd hmem
    rcases List.eq_nil_or_concat inact with hnil | ⟨ys, z, rfl⟩
    · subst hnil
      simp at hk
    · simp only [List.concat_eq_append] at hnd hk hmem ⊢
      have hgl : (ys ++ [z]).getLast? = some z := List.getLast?_concat _
      have hfz : (mapFind m z).isSome = true := hmem z (by simp)
      have hzy : z ∉ ys := by
        have := List.nodup_append.mp hnd
        intro hc
        exact this.2.2 hc (by simp)
      have hmem' : ∀ id ∈ ys, (mapFind (mapRemove m z) id).isSome = true := by
        intro id hid
        rw [mapFind_mapRemove]
        rw [if_neg (by
          intro hc
          exact hzy (hc ▸ hid))]
        exact hmem id (by simp [hid])
      have hk' : k' ≤ ys.length := by
        have := hk
        simp at this
        omega
      have hnd' : ys.Nodup := (List.nodup_append.mp hnd).1
      obtain ⟨m', i', hrun, hlen⟩ := ih (mapRemove m z) ys hk' hnd' hmem'
      refine ⟨m', i', ?_, ?_⟩
      · unfold removeInactiveLoop
        rw [hgl]
        obtain ⟨v, hv⟩ := Option.isSome_iff_exists.mp hfz
        simp only [hv]
        rw [List.dropLast_concat]
        exact hrun
      · have := mapRemove_length_lt m z hfz
        push_cast at hlen ⊢
        omega

/-- C7. SetPoolLimit: raising the capacity above the current value succeeds
and only changes the limit; lowering it succeeds exactly when the active
count fits under the new limit — in which case enough inactive slots are
removed that the total is at most the new limit, which is installed — and
fails leaving the state untouched otherwise. -/
theorem C7_set_pool_limit (st : PoolState) (n : Int)
    (hinit : st.bHasBeenInit = true)
    (hnd : st.inactiveObjectIDPool.Nodup)
    (hmem : ∀ id ∈ st.inactiveObjectIDPool, (mapFind st.objectPool id).isSome = true) :
    (n > st.poolLimit → setPoolLimit st n = BFRes.ok (true, { st with poolLimit := n })) ∧
    (n < st.poolLimit →
      (getActivePoolNum st ≤ n →
        ∃ st', setPoolLimit st n = BFRes.ok (true, st') ∧
          getPoolNum st' ≤ n ∧ st'.poolLimit = n) ∧
      (getActivePoolNum st > n → setPoolLimit st n = BFRes.ok (false, st))) := by
  constructor
  · intro hgt
    unfold setPoolLimit
    rw [hinit]
    simp only [if_true]
    rw [if_neg (by omega), if_pos hgt]
  · intro hlt
    constructor
    · intro hactive
      unfold setPoolLimit
      rw [hinit]
      simp only [if_true]
      rw [if_neg (by omega), if_neg (by omega)]
      rw [if_pos (by
        unfold getActivePoolNum at hactive
        omega)]
      by_cases hfits : getPoolNum st ≤ n
      · rw [if_pos hfits]
        exact ⟨_, rfl, by unfold getPoolNum at hfits ⊢; dsimp only; omega, rfl⟩
      · rw [if_neg hfits]
        have hbig : getPoolNum st > n := by omega
        unfold removeInactiveNumFromPool
        rw [hinit]
        simp only [if_true]
        have hguard : ¬getPoolNum st - n > getInactivePoolNum st := by
          unfold getActivePoolNum at hactive
          omega
        rw [if_neg hguard]
        have hkn : (getPoolNum st - n).toNat ≤ st.inactiveObjectIDPool.length := by
          unfold getInactivePoolNum at hguard
          omega
        obtain ⟨m', i', hrun, hlen⟩ :=
          removeInactiveLoop_ok (getPoolNum st - n).toNat st.objectPool
            st.inactiveObjectIDPool hkn hnd hmem
        rw [hrun]
        refine ⟨_, rfl, ?_, rfl⟩
        unfold getPoolNum at hbig hlen ⊢
        dsimp only
        have htn : ((getPoolNum st - n).toNat : Int) = getPoolNum st - n := by
          unfold getPoolNum
          omega
        unfold getPoolNum at htn
        omega
    · intro hactive
      unfold setPoolLimit
      rw [hinit]
      simp only [if_true]
      rw [if_neg (by omega), if_neg (by omega)]
      rw [if_neg (by
        unfold getActivePoolNum at hactive
        omega)]

/-- Witness for C7 at stW7 (capacity 3, two inactive slots, none active):
raising to 5 succeeds; lowering to 1 succeeds, trimming to at most 1 slot. -/
theorem C7_set_pool_limit_witness :
    (stW7.bHasBeenInit = true ∧ stW7.inactiveObjectIDPool.Nodup ∧
      (5 : Int) > stW7.poolLimit ∧ (1 : Int) < stW7.poolLimit ∧
      getActivePoolNum stW7 ≤ 1) ∧
    setPoolLimit stW7 5 = BFRes.ok (true, { stW7 with poolLimit := 5 }) ∧
    (∃ st', setPoolLimit stW7 1 = BFRes.ok (true, st') ∧
      getPoolNum st' ≤ 1 ∧ st'.poolLimit = 1) := by
  have hmem : ∀ id ∈ stW7.inactiveObjectIDPool, (mapFind stW7.objectPool id).isSome = true := by
    with_unfolding_all decide
  refine ⟨⟨by with_unfolding_all decide, by decide, by decide, by decide,
    by with_unfolding_all decide⟩, ?_, ?_⟩
  · exact (C7_set_pool_limit stW7 5 (by with_unfolding_all decide) (by decide) hmem).1
      (by decide)
  · exact ((C7_set_pool_limit stW7 1 (by with_unfolding_all decide) (by decide) hmem).2
      (by decide)).1 (by with_unfolding_all decide)

theorem removeAtSwap_cons_zero_perm {α : Type} (a : α) (rest : List α) :
    (removeAtSwap (a :: rest) 0).Perm rest := by
  rcases List.eq_nil_or_concat rest with hnil | ⟨ys, z, rfl⟩
  · subst hnil
    simp [removeAtSwap]
  · simp only [List.concat_eq_append]
    unfold removeAtSwap
    have hgl : (a :: (ys ++ [z])).getLast? = some z := by
      rw [show a :: (ys ++ [z]) = (a :: ys) ++ [z] from rfl]
      exact List.getLast?_concat _
    rw [hgl]
    dsimp only
    have hset : (a :: (ys ++ [z])).set 0 z = z :: (ys ++ [z]) := rfl
    rw [hset]
    have hdl : (z :: (ys ++ [z])).dropLast = z :: ys := by
      rw [show z :: (ys ++ [z]) = (z :: ys) ++ [z] from by simp]
      exact List.dropLast_concat
    rw [hdl]
    exact (List.perm_append_singleton z ys).symm

theorem evalLoop_sweepAll (fuel : Nat) :
    ∀ (m : PoolMap) (arr : List Int) (t mx : ℚ) (r : Nat),
      arr.length ≤ fuel → arr.Nodup →
      (∀ id ∈ arr, ∃ info, mapFind m id = some info ∧ t - info.lastTimeActive ≥ mx) →
      ∃ m', evalOccupancyLoop m arr 0 t mx r = BFRes.ok (m', [], r + arr.length) ∧
        (∀ id ∈ arr, mapFind m' id = none) ∧
        (∀ id0 : Int, id0 ∉ arr → mapFind m' id0 = mapFind m id0) := by
  induction fuel with
  | zero =>
    intro m arr t mx r hf hnd hmem
    have harr : arr = [] := List.length_eq_zero.mp (by omega)
    subst harr
    refine ⟨m, ?_, by simp, fun _ _ => rfl⟩
    unfold evalOccupancyLoop
    rw [dif_neg (by simp)]
    simp
  | succ f ih =>
    intro m arr t mx r hf hnd hmem
    cases arr with
    | nil =>
      refine ⟨m, ?_, by simp, fun _ _ => rfl⟩
      unfold evalOccupancyLoop
      rw [dif_neg (by simp)]
      simp
    | cons a rest =>
      obtain ⟨info, hfindA, hqual⟩ := hmem a (by simp)
      have hperm := removeAtSwap_cons_zero_perm a rest
      have hndc := List.nodup_cons.mp hnd
      have hlen1 : (removeAtSwap (a :: rest) 0).length = rest.length := hperm.length_eq
      have hmemswap : ∀ x, x ∈ removeAtSwap (a :: rest) 0 ↔ x ∈ rest :=
        fun x => hperm.mem_iff
      have hnd1 : (removeAtSwap (a :: rest) 0).Nodup := (hperm.nodup_iff).mpr hndc.2
      have hmem1 : ∀ id ∈ removeAtSwap (a :: rest) 0,
          ∃ info1, mapFind (mapRemove m a) id = some info1 ∧
            t - info1.lastTimeActive ≥ mx := by
        intro id hid
        have hidr : id ∈ rest := (hmemswap id).mp hid
        obtain ⟨info1, hfind1, hq1⟩ := hmem id (by simp [hidr])
        refine ⟨info1, ?_, hq1⟩
        rw [mapFind_mapRemove]
        rw [if_neg (by
          intro hc
          exact hndc.1 (hc ▸ hidr))]
        exact hfind1
      obtain ⟨m', hrun, hnone, hother⟩ :=
        ih (mapRemove m a) (removeAtSwap (a :: rest) 0) t mx (r + 1)
          (by simp at hf; omega) hnd1 hmem1
      refine ⟨m', ?_, ?_, ?_⟩
      · unfold evalOccupancyLoop
        rw [dif_pos (by simp)]
        have hget : (a :: rest).get ⟨0, by simp⟩ = a := rfl
        rw [hget]
        simp only [hfindA]
        rw [if_pos hqual]
        rw [hrun]
        have : r + 1 + (removeAtSwap (a :: rest) 0).length = r + (a :: rest).length := by
          rw [hlen1]
          simp
          omega
        rw [this]
      · intro id hid
        rcases List.mem_cons.mp hid with hid | hid
        · subst hid
          have hnotin : id ∉ removeAtSwap (id :: rest) 0 := by
            intro hc
            exact hndc.1 ((hmemswap id).mp hc)
          rw [hother id hnotin, mapFind_mapRemove]
          simp
        · exact hnone id ((hmemswap id).mpr hid)
      · intro id0 hid0
        have h1 : id0 ∉ removeAtSwap (a :: rest) 0 := by
          intro hc
          exact hid0 (by simp [(hmemswap id0).mp hc])
        have h2 : ¬a = id0 := by
          intro hc
          exact hid0 (by simp [← hc])
        rw [hother id0 h1, mapFind_mapRemove, if_neg h2]

/-- C10. EvaluatePoolOccupancy reads MaxObjectInactiveOccupancySeconds
without checking that it is positive — only the Tick callback guards the
call. With the disabled value -1 stored, calling it directly on an
initialized pool whose inactive slots were all last active no later than
now destroys and removes every inactive slot (now - lastActiveAt ≥ 0 ≥ -1
for each), leaving the inactive list empty and the active slots untouched,
while Tick itself would not have called the sweep at all. -/
theorem C10_sweep_unguarded (st : PoolState) (t : ℚ)
    (hinit : st.bHasBeenInit = true)
    (hmax : st.maxObjectInactiveOccupancySeconds = -1)
    (hnd : st.inactiveObjectIDPool.Nodup)
    (hpast : ∀ id ∈ st.inactiveObjectIDPool, slotPast st.objectPool id t = true) :
    (∃ st' b, evaluatePoolOccupancy st t = BFRes.ok (b, st') ∧
      st'.inactiveObjectIDPool = [] ∧
      (b = true ↔ ¬st.inactiveObjectIDPool = []) ∧
      (∀ id ∈ st.inactiveObjectIDPool, mapFind st'.objectPool id = none) ∧
      (∀ id0 : Int, id0 ∉ st.inactiveObjectIDPool →
        mapFind st'.objectPool id0 = mapFind st.objectPool id0)) ∧
    tick st t = BFRes.ok st := by
  have hmem : ∀ id ∈ st.inactiveObjectIDPool,
      ∃ info, mapFind st.objectPool id = some info ∧
        t - info.lastTimeActive ≥ st.maxObjectInactiveOccupancySeconds := by
    intro id hid
    have := hpast id hid
    unfold slotPast at this
    cases hfind : mapFind st.objectPool id with
    | none =>
      rw [hfind] at this
      simp at this
    | some info =>
      rw [hfind] at this
      simp at this
      refine ⟨info, rfl, ?_⟩
      rw [hmax]
      linarith
  obtain ⟨m', hrun, hnone, hother⟩ :=
    evalLoop_sweepAll st.inactiveObjectIDPool.length st.objectPool
      st.inactiveObjectIDPool t st.maxObjectInactiveOccupancySeconds 0 (le_refl _) hnd hmem
  constructor
  · refine ⟨{ st with objectPool := m', inactiveObjectIDPool := [] },
      decide (0 + st.inactiveObjectIDPool.length > 0), ?_, rfl, ?_, hnone, hother⟩
    · unfold evaluatePoolOccupancy
      rw [hinit]
      simp only [if_true]
      rw [hrun]
    · simp only [decide_eq_true_eq]
      constructor
      · intro hgt hnil
        rw [hnil] at hgt
        simp at hgt
      · intro hne
        have : st.inactiveObjectIDPool.length > 0 := List.length_pos.mpr hne
        omega
  · unfold tick
    rw [hmax]
    rw [if_neg (by norm_num)]

/-- Witness for C10 at stC1b (one inactive slot last active at 0, sweep
threshold at its disabled value -1): the direct call removes the slot, the
Tick route does nothing. -/
theorem C10_sweep_unguarded_witness :
    (stC1b.bHasBeenInit = true ∧ stC1b.maxObjectInactiveOccupancySeconds = -1 ∧
      stC1b.inactiveObjectIDPool.Nodup ∧
      (∀ id ∈ stC1b.inactiveObjectIDPool, slotPast stC1b.objectPool id 2 = true)) ∧
    ((∃ st' b, evaluatePoolOccupancy stC1b 2 = BFRes.ok (b, st') ∧
      st'.inactiveObjectIDPool = [] ∧
      (b = true ↔ ¬stC1b.inactiveObjectIDPool = []) ∧
      (∀ id ∈ stC1b.inactiveObjectIDPool, mapFind st'.objectPool id = none) ∧
      (∀ id0 : Int, id0 ∉ stC1b.inactiveObjectIDPool →
        mapFind st'.objectPool id0 = mapFind stC1b.objectPool id0)) ∧
    tick stC1b 2 = BFRes.ok stC1b) := by
  refine ⟨⟨by with_unfolding_all decide, by with_unfolding_all decide, by decide,
    by with_unfolding_all decide⟩, ?_⟩
  exact C10_sweep_unguarded stC1b 2 (by with_unfolding_all decide)
    (by with_unfolding_all decide) (by decide) (by with_unfolding_all decide)

end BFOP
